import Mathlib

/-!
# Sidecar proxy request router

A shallow embedding of package `proxy` of the sidecar:
`pkg/sidecar/proxy/chat_completions.go` (the request router),
`pkg/sidecar/proxy/data_parallel.go` (the data-parallel dispatch and the
construction of the rank table) and `pkg/sidecar/proxy/connector_sglang.go`
(the SGLang connector).

A handler is a function from the server and the request to the ordered list
of calls it makes on its collaborators: the sampler, the allowlist validator,
the connector, the forwarding handlers and the response writer `w`.  Every
callee that takes `(w, r)` receives the handler's own `w`; the request it is
given is recorded in the event.  Logging is left out.

`startDataParallel` passes the server as state: it returns the server with
the table it has filled.  A goroutine is modelled by its body: the closures
handed to `grp.Go` by the clones they start, the detached prefill call by an
event and by the private writer it runs on.

Go strings are taken as sequences of Unicode code points, Go `int` and
`int64` as integers with explicit wrap-around where the code adds.  What the
package takes from outside these sources (the environment, `url.Parse`,
`encoding/json`, helpers declared in other files) is a parameter.
-/

namespace Proxy

/-! ## Go standard library -/

/-- Go `unicode.IsSpace`: the Unicode White_Space property. -/
def isSpace (c : Char) : Bool :=
  let n := c.toNat
  (0x09 ≤ n && n ≤ 0x0d) || n == 0x20 || n == 0x85 || n == 0xa0 || n == 0x1680 ||
  (0x2000 ≤ n && n ≤ 0x200a) || n == 0x2028 || n == 0x2029 || n == 0x202f ||
  n == 0x205f || n == 0x3000

/-- Go `strings.TrimSpace`: the string with all leading and trailing white
space removed, as defined by Unicode. -/
def TrimSpace (s : String) : String :=
  ⟨(s.data.dropWhile isSpace).rdropWhile isSpace⟩

/-- Go `strings.Split(s, ",")`: the substrings of `s` between the commas;
a string without a comma (the empty string too) gives the one-element
slice holding it. -/
def SplitComma (s : String) : List String :=
  (s.data.splitOn ',').map String.mk

/-- Go `strings.Join(elems, ",")`. -/
def JoinComma (elems : List String) : String :=
  ⟨[','].intercalate (elems.map String.data)⟩

/-- Go slice indexing `xs[i]` with a Go `int` index: `none` stands for the
run-time panic on an index out of range. -/
def index (xs : List String) (i : Int) : Option String :=
  if 0 ≤ i ∧ i < (xs.length : Int) then xs.get? i.toNat else none

/-- Go `http.StatusBadRequest`. -/
def StatusBadRequest : Nat := 400

/-- Go `http.StatusForbidden`. -/
def StatusForbidden : Nat := 403

/-- Go `http.StatusBadGateway`. -/
def StatusBadGateway : Nat := 502

/-- Go `int` arithmetic on a 64-bit platform: the result of an addition or
subtraction wraps around into `[-2^63, 2^63)`. -/
def int64 (x : Int) : Int :=
  (x + 2 ^ 63) % 2 ^ 64 - 2 ^ 63

/-- The decimal digit `d < 10` as a character. -/
def digitChar (d : Nat) : Char :=
  Char.ofNat (48 + d)

/-- The decimal digits of `n`, most significant first; `fuel` bounds their
number and `n + 1` is always enough. -/
def formatDecimal : Nat → Nat → List Char
  | 0, _ => []
  | fuel + 1, n =>
    if n < 10 then [digitChar n] else formatDecimal fuel (n / 10) ++ [digitChar (n % 10)]

/-- Go `strconv.Itoa`: the decimal text of an `int`, with a leading `-` when
it is negative. -/
def Itoa (i : Int) : String :=
  if i < 0 then ⟨'-' :: formatDecimal (i.natAbs + 1) i.natAbs⟩
  else ⟨formatDecimal (i.natAbs + 1) i.natAbs⟩

/-- The value of a decimal digit character, `none` for any other character. -/
def digitValue (c : Char) : Option Nat :=
  if 48 ≤ c.toNat ∧ c.toNat ≤ 57 then some (c.toNat - 48) else none

/-- Reads decimal digits onto the accumulator `acc`; `none` when a character
is not a digit. -/
def parseDecimal : List Char → Nat → Option Nat
  | [], acc => some acc
  | c :: cs, acc =>
    match digitValue c with
    | some d => parseDecimal cs (acc * 10 + d)
    | none => none

/-- Go `strconv.Atoi`: an optional sign followed by one or more decimal digits,
with a value in `[-2^63, 2^63)`; `none` stands for the returned error. -/
def Atoi (s : String) : Option Int :=
  match s.data with
  | [] => none
  | '-' :: ds =>
    if ds = [] then none
    else match parseDecimal ds 0 with
      | some n => if n ≤ 2 ^ 63 then some (-(n : Int)) else none
      | none => none
  | '+' :: ds =>
    if ds = [] then none
    else match parseDecimal ds 0 with
      | some n => if n < 2 ^ 63 then some (n : Int) else none
      | none => none
  | ds =>
    match parseDecimal ds 0 with
    | some n => if n < 2 ^ 63 then some (n : Int) else none
    | none => none

/-- Go `net.JoinHostPort`: `host:port`, the host in square brackets when it
contains a colon. -/
def JoinHostPort (host port : String) : String :=
  if ':' ∈ host.data then "[" ++ host ++ "]:" ++ port else host ++ ":" ++ port

/-- Go `strings.Split(s, ":")`. -/
def SplitColon (s : String) : List String :=
  (s.data.splitOn ':').map String.mk

/-- The part of Go `url.URL` the server reads. -/
structure URL where
  Scheme : String
  Host : String
  deriving DecidableEq, Repr

/-- Go `validOptionalPort` of `net/url`: empty, or a colon followed by digits. -/
def validOptionalPort (port : List Char) : Bool :=
  match port with
  | [] => true
  | c :: ds => c == ':' && ds.all (fun d => (digitValue d).isSome)

/-- Go `URL.Port`: what follows the last colon of `Host` when that is a valid
port, `""` otherwise. -/
def URL.Port (u : URL) : String :=
  let afterColon := (u.Host.data.reverse.takeWhile (fun c => c ≠ ':')).reverse
  if ':' ∈ u.Host.data ∧ validOptionalPort (':' :: afterColon) then ⟨afterColon⟩ else ""

/-- An `error` value returned by a library call. -/
inductive Error where
  | atoi (text : String)
  | urlParse (rawURL : String)
  | readBody
  | jsonUnmarshal
  | jsonMarshal
  | prefillerProxy (hostPort : String)
  deriving DecidableEq, Repr

/-- Go `[]byte`. -/
abbrev Bytes := List UInt8

/-- Whether the string starts with a white-space character. -/
def hasLeadingSpace (t : String) : Bool :=
  match t.data.head? with
  | some c => isSpace c
  | none => false

/-- Whether the string ends with a white-space character. -/
def hasTrailingSpace (t : String) : Bool :=
  match t.data.getLast? with
  | some c => isSpace c
  | none => false

/-! ## Requests -/

/-- Canonical names of request headers.  The constants
`common.PrefillPodHeader` and `common.DataParallelPodHeader` are declared in
package `common`; they are two different header names. -/
inductive HeaderKey where
  | PrefillPodHeader
  | DataParallelPodHeader
  | other (name : String)
  deriving DecidableEq, Repr

/-- Go `http.Header`: a map from canonical header name to the list of values;
the first binding of a key is the one the map holds, and the nil map is `[]`. -/
abbrev Header := List (HeaderKey × List String)

/-- Go `Header.Values`: all values of the key, nil when there is none. -/
def Header.Values (h : Header) (key : HeaderKey) : List String :=
  (h.lookup key).getD []

/-- Go `Header.Get`: the first value of the key, `""` when there is none. -/
def Header.Get (h : Header) (key : HeaderKey) : String :=
  (Header.Values h key).headD ""

/-- Go `Header.Del`: remove the key. -/
def Header.Del (h : Header) (key : HeaderKey) : Header :=
  h.filter (fun kv => kv.1 ≠ key)

/-- The part of `http.Request` the proxy reads: the headers, the bytes
`io.ReadAll(r.Body)` yields (`none` when reading fails) and `ContentLength`. -/
structure Request where
  Header : Header
  Body : Option Bytes := some []
  ContentLength : Int := 0
  deriving DecidableEq, Repr

/-! ## Server -/

/-- An `http.Handler` value held by the server, compared by identity: a
reverse proxy is named by the URL it forwards to, any other handler by a tag. -/
inductive Handler where
  | reverseProxy (url : URL) (insecureSkipVerify : Bool)
  | func (tag : Nat)
  deriving DecidableEq, Repr

/-- The fields of `Config` the proxy reads. -/
structure Config where
  EnablePrefillerSampling : Bool
  DataParallelSize : Int := 1
  DecoderInsecureSkipVerify : Bool := false
  deriving DecidableEq, Repr

/-- The allowlist validator, by its decision function. -/
structure AllowlistValidator where
  IsAllowed : String → Bool

/-- The fields of `Server` the proxy reads.  `dataParallelProxies` is
the Go map from rank address to handler: a missing key reads as nil (`none`),
and so does a key bound to nil. -/
structure Server where
  config : Config
  prefillSamplerFn : Int → Int
  allowlistValidator : AllowlistValidator
  forwardDataParallel : Bool
  dataParallelProxies : List (String × Option Handler)
  decoderProxy : Handler
  port : String := ""
  decoderURL : URL := { Scheme := "", Host := "" }

/-- Go map read `s.dataParallelProxies[key]`. -/
def Server.dataParallelProxy (s : Server) (key : String) : Option Handler :=
  (s.dataParallelProxies.lookup key).join

/-! ## Events

`dataParallelHandler` below returns the calls made inside its body; the
event for the call of `dataParallelHandler` itself is recorded by its caller. -/

/-- One call made by a handler on a collaborator. -/
inductive Event where
  /-- The call `s.prefillSamplerFn(n)`. -/
  | prefillSamplerFn (n : Int)
  /-- The call `s.allowlistValidator.IsAllowed(target)`. -/
  | IsAllowed (target : String)
  /-- The call `s.runConnectorProtocol(w, r, target)`. -/
  | runConnectorProtocol (r : Request) (target : String)
  /-- The call `s.dataParallelHandler(w, r)`. -/
  | dataParallelHandler (r : Request)
  /-- The map read `s.dataParallelProxies[key]`. -/
  | dataParallelLookup (key : String)
  /-- The call `handler.ServeHTTP(w, r)`. -/
  | ServeHTTP (handler : Handler) (r : Request)
  /-- The call `w.WriteHeader(code)`. -/
  | WriteHeader (code : Nat)
  /-- The call `http.Error(w, body, code)`. -/
  | httpError (body : String) (code : Nat)
  /-- A run-time panic: the handler stops here. -/
  | panic
  deriving DecidableEq, Repr

/-- Whether the event acts on the response or hands the request to a handler
or to the connector; the sampler call, the allowlist query, the call of the
server's own `dataParallelHandler` and the table read are the others. -/
def Event.isEffect : Event → Bool
  | .prefillSamplerFn _ => false
  | .IsAllowed _ => false
  | .dataParallelHandler _ => false
  | .dataParallelLookup _ => false
  | _ => true

/-- The event with the request it passes on replaced by `r`. -/
def Event.withRequest (r : Request) : Event → Event
  | .runConnectorProtocol _ target => .runConnectorProtocol r target
  | .dataParallelHandler _ => .dataParallelHandler r
  | .ServeHTTP handler _ => .ServeHTTP handler r
  | e => e

/-- What a run does to the response and to the handlers behind the router. -/
def outcome (trace : List Event) : List Event :=
  trace.filter Event.isEffect

/-! ## data_parallel.go -/

/-- The method `Server.dataParallelHandler`: the calls made in its body and the
boolean returned. -/
def dataParallelHandler (s : Server) (r : Request) : List Event × Bool :=
  let dataParallelPodHostPort := r.Header.Get .DataParallelPodHeader
  if dataParallelPodHostPort ≠ "" then
    match s.dataParallelProxy dataParallelPodHostPort with
    | some handler =>
      ([.dataParallelLookup dataParallelPodHostPort, .ServeHTTP handler r], true)
    | none =>
      ([.dataParallelLookup dataParallelPodHostPort, .WriteHeader StatusBadRequest], true)
  else
    ([], false)

/-- Go map write `m[key] = value` on the data-parallel table: the binding of an
existing key is replaced, a new key is added. -/
def mapSet (m : List (String × Option Handler)) (key : String) (value : Option Handler) :
    List (String × Option Handler) :=
  if key ∈ m.map Prod.fst then m.map (fun kv => if kv.1 = key then (key, value) else kv)
  else m ++ [(key, value)]

/-- Go `for idx := range n`: the indices `0, ..., n-1`, none when `n ≤ 0`. -/
def rangeInt (n : Int) : List Int :=
  (List.range n.toNat).map Int.ofNat

/-- Whether the value is representable as a Go `int`. -/
def fitsInt64 (x : Int) : Prop :=
  -2 ^ 63 ≤ x ∧ x < 2 ^ 63

instance (x : Int) : Decidable (fitsInt64 x) := by
  unfold fitsInt64
  infer_instance

/-- The method `Server.createDecoderProxyHandler` is declared outside these
sources: the reverse proxy it builds is named by the URL it forwards to and the
TLS flag it is given. -/
def createDecoderProxyHandler (decoderURL : URL) (insecureSkipVerify : Bool) : Handler :=
  .reverseProxy decoderURL insecureSkipVerify

/-- The method `Server.Clone` is declared outside these sources: a copy of the
server, field by field. -/
def Server.Clone (s : Server) : Server :=
  { s with }

/-- The text `startDataParallel` hands to `url.Parse` for the decoder of the
loop index `idx`. -/
def rankDecoderURL (s : Server) (baseDecoderPort idx : Int) : String :=
  s.decoderURL.Scheme ++ "://localhost:" ++ Itoa (int64 (baseDecoderPort + idx + 1))

/-- The table key `startDataParallel` builds for the loop index `idx`. -/
def rankHostPort (podIP : String) (basePort idx : Int) : String :=
  JoinHostPort podIP (Itoa (int64 (basePort + idx + 1)))

/-- The first loop of `startDataParallel` (lines 52-62) over the remaining
indices: the table it leaves and the error it returns, if any.  `urlParse` is
Go `url.Parse`, `none` standing for its error. -/
def fillDataParallelProxies (podIP : String) (urlParse : String → Option URL) (s : Server)
    (basePort baseDecoderPort : Int) :
    List Int → List (String × Option Handler) → List (String × Option Handler) × Option Error
  | [], table => (table, none)
  | idx :: rest, table =>
    let rankPort := Itoa (int64 (basePort + idx + 1))
    let hostPort := JoinHostPort podIP rankPort
    match urlParse (rankDecoderURL s baseDecoderPort idx) with
    | none => (table, some (.urlParse (rankDecoderURL s baseDecoderPort idx)))
    | some decoderURL =>
      let handler := createDecoderProxyHandler decoderURL s.config.DecoderInsecureSkipVerify
      fillDataParallelProxies podIP urlParse s basePort baseDecoderPort rest
        (mapSet table hostPort (some handler))

/-- The body of one `grp.Go` closure of `startDataParallel` (lines 65-83): the
clone on which `startHTTP` is called, or the error of `url.Parse`. -/
def subServer (urlParse : String → Option URL) (s : Server) (basePort baseDecoderPort : Int)
    (idx : Int) : Except Error Server :=
  let rankPort := Itoa (int64 (basePort + idx + 1))
  match urlParse (rankDecoderURL s baseDecoderPort idx) with
  | none => .error (.urlParse (rankDecoderURL s baseDecoderPort idx))
  | some decoderURL =>
    let clone := s.Clone
    .ok { clone with port := rankPort, decoderURL := decoderURL, forwardDataParallel := false }

/-- What a call of `startDataParallel` leaves: the server with its table, the
error returned, and one entry per closure handed to `grp.Go`. -/
structure Started where
  server : Server
  err : Option Error
  subServers : List (Except Error Server)

/-- The method `Server.startDataParallel`; `podIP` is `os.Getenv("POD_IP")` and
`urlParse` is Go `url.Parse`. -/
def startDataParallel (podIP : String) (urlParse : String → Option URL) (s : Server) :
    Started :=
  match Atoi s.port with
  | none => { server := s, err := some (.atoi s.port), subServers := [] }
  | some basePort =>
    match Atoi s.decoderURL.Port with
    | none => { server := s, err := some (.atoi s.decoderURL.Port), subServers := [] }
    | some baseDecoderPort =>
      let table := mapSet s.dataParallelProxies (JoinHostPort podIP s.port) (some s.decoderProxy)
      let ranks := rangeInt (int64 (s.config.DataParallelSize - 1))
      match fillDataParallelProxies podIP urlParse s basePort baseDecoderPort ranks table with
      | (table, some err) =>
        { server := { s with dataParallelProxies := table }, err := some err, subServers := [] }
      | (table, none) =>
        let s := { s with dataParallelProxies := table }
        { server := s, err := none,
          subServers := ranks.map (subServer urlParse s basePort baseDecoderPort) }

/-! ## chat_completions.go -/

/-- Lines 35-43 of `chatCompletionsHandler`: the candidate list. -/
def prefillHostPorts (r : Request) : List String :=
  let prefillHostPorts := r.Header.Values .PrefillPodHeader
  if prefillHostPorts.length = 1 then
    SplitComma (prefillHostPorts.headD "")
  else
    prefillHostPorts

/-- Lines 45-55 of `chatCompletionsHandler`: the calls made and the selected
`prefillHostPort`, `none` when the indexing panics. -/
def selectPrefillHostPort (s : Server) (prefillHostPorts : List String) :
    List Event × Option String :=
  let numHosts : Int := prefillHostPorts.length
  if numHosts > 0 then
    if s.config.EnablePrefillerSampling then
      ([.prefillSamplerFn numHosts],
        (index prefillHostPorts (s.prefillSamplerFn numHosts)).map TrimSpace)
    else if numHosts > 0 then
      ([], (index prefillHostPorts 0).map TrimSpace)
    else
      ([], some "")
  else
    ([], some "")

/-- Lines 57-79 of `chatCompletionsHandler`: dispatch on the selected target. -/
def dispatch (s : Server) (r : Request) (prefillHostPort : String) : List Event :=
  if prefillHostPort.length = 0 then
    if s.forwardDataParallel then
      let handled := dataParallelHandler s r
      if !handled.2 then
        .dataParallelHandler r :: handled.1 ++ [.ServeHTTP s.decoderProxy r]
      else
        .dataParallelHandler r :: handled.1
    else
      []
  else if !s.allowlistValidator.IsAllowed prefillHostPort then
    [.IsAllowed prefillHostPort,
     .httpError "Forbidden: prefill target not allowed by SSRF protection" StatusForbidden]
  else
    [.IsAllowed prefillHostPort, .runConnectorProtocol r prefillHostPort]

/-- The method `Server.chatCompletionsHandler`: the calls it makes, in order. -/
def chatCompletionsHandler (s : Server) (r : Request) : List Event :=
  let selected := selectPrefillHostPort s (prefillHostPorts r)
  match selected.2 with
  | none => selected.1 ++ [.panic]
  | some prefillHostPort => selected.1 ++ dispatch s r prefillHostPort

/-! ## connector_sglang.go -/

/-- A Go `interface{}` value held in a request body map: a string, an `int` or
`int64`, or any other decoded JSON value, kept by its text. -/
inductive Value where
  | str (text : String)
  | int (n : Int)
  | decoded (text : String)
  deriving DecidableEq, Repr

/-- Go `map[string]interface{}`; the first binding of a key is the one the map
holds. -/
abbrev JSONObject := List (String × Value)

/-- Go map write `m[key] = value` on a request body map. -/
def setField (m : JSONObject) (key : String) (value : Value) : JSONObject :=
  if key ∈ m.map Prod.fst then m.map (fun kv => if kv.1 = key then (key, value) else kv)
  else m ++ [(key, value)]

/-- What a response writer has been given: the zero value is the writer nothing
was written to, as the fresh `bufferedResponseWriter` of the prefill leg. -/
structure Response where
  statusCode : Nat := 0
  header : Header := []
  body : Bytes := []
  deriving DecidableEq, Repr

/-- What `connector_sglang.go` takes from outside these sources: the request
field names and the helpers `errorJSONInvalid`, `errorBadGateway` and
`prefillerProxyHandler` declared elsewhere in the package, the package variable
`sglangBootstrapPort`, the clock reading and the random draw of this call,
`encoding/json`, and what each handler does to the writer it is given.  For
the functions that can fail `none` stands for the error. -/
structure Connector where
  requestFieldBootstrapHost : String
  requestFieldBootstrapPort : String
  requestFieldBootstrapRoom : String
  sglangBootstrapPort : Int
  nowUnixNano : Int
  randIntn : Int
  jsonUnmarshal : Bytes → Option JSONObject
  jsonMarshal : JSONObject → Option Bytes
  prefillerProxyHandler : String → Option Handler
  errorJSONInvalid : Error → Response → Response
  errorBadGateway : Error → Response → Response
  ServeHTTP : Handler → Request → Response → Response

/-- The function `init`: the bootstrap port is 8998 unless the environment
variable `SGLANG_BOOTSTRAP_PORT`, here `portStr`, holds a number. -/
def sglangBootstrapPortInit (portStr : String) : Int :=
  if portStr ≠ "" then
    match Atoi portStr with
    | some port => port
    | none => 8998
  else 8998

/-- One call made by the connector. -/
inductive SGLangEvent where
  /-- The call `errorJSONInvalid(err, w)`. -/
  | errorJSONInvalid (err : Error)
  /-- The call `s.generateSGLangRoomID()` and the identifier it returns. -/
  | generateSGLangRoomID (roomID : Int)
  /-- The call `json.Marshal(bootstrapInfo)`. -/
  | jsonMarshal (bootstrapInfo : JSONObject)
  /-- The call `s.prefillerProxyHandler(prefillHost)`. -/
  | prefillerProxyHandler (prefillHost : String)
  /-- The call `errorBadGateway(err, w)`. -/
  | errorBadGateway (err : Error)
  /-- The statement `go func() ...`: `prefillHandler.ServeHTTP(pw, prefillReq)`
  on a fresh `bufferedResponseWriter`, not awaited. -/
  | goServeHTTP (prefillHandler : Handler) (prefillReq : Request)
  /-- The call `handler.ServeHTTP(w, r)` on the client's writer `w`. -/
  | ServeHTTP (handler : Handler) (r : Request)
  /-- A run-time panic: the connector stops here. -/
  | panic
  deriving DecidableEq, Repr

/-- Whether the event is a call of `json.Marshal`. -/
def SGLangEvent.isJSONMarshal : SGLangEvent → Bool
  | .jsonMarshal _ => true
  | _ => false

/-- What a run of the connector leaves: its calls in order, the client's writer
after the run, and the private writer of the prefill leg once that leg has run
(`none` when no prefill request was dispatched). -/
structure Connected where
  trace : List SGLangEvent
  w : Response
  pw : Option Response
  deriving DecidableEq, Repr

/-- The method `Server.parseSGLangRequest`. -/
def parseSGLangRequest (c : Connector) (r : Request) : Except Error JSONObject :=
  match r.Body with
  | none => .error .readBody
  | some body =>
    match c.jsonUnmarshal body with
    | none => .error .jsonUnmarshal
    | some requestData => .ok requestData

/-- The method `Server.generateSGLangRoomID`, on the clock reading
`time.Now().UnixNano()` and the draw `rand.Intn(1000)`; the sum is that of
Go `int64`. -/
def generateSGLangRoomID (nowUnixNano randIntn : Int) : Int :=
  int64 (nowUnixNano + randIntn)

/-- The method `Server.getBootstrapHost`; `none` stands for the panic of
`parts[0]` on an empty slice. -/
def getBootstrapHost (prefillHostPort : String) : Option String :=
  let parts := SplitColon prefillHostPort
  index parts 0

/-- The method `Server.addSGLangBootstrapInfo`; `none` when `getBootstrapHost`
panics. -/
def addSGLangBootstrapInfo (c : Connector) (requestData : JSONObject)
    (prefillHostPort : String) (roomID : Int) : Option JSONObject :=
  let modifiedRequest := requestData.foldl (fun m kv => setField m kv.1 kv.2) []
  match getBootstrapHost prefillHostPort with
  | none => none
  | some bootstrapHost =>
    let modifiedRequest := setField modifiedRequest c.requestFieldBootstrapHost
      (.str bootstrapHost)
    let modifiedRequest := setField modifiedRequest c.requestFieldBootstrapPort
      (.int c.sglangBootstrapPort)
    let modifiedRequest := setField modifiedRequest c.requestFieldBootstrapRoom (.int roomID)
    some modifiedRequest

/-- The function `cloneWithJSONBody`. -/
def cloneWithJSONBody (r : Request) (body : Bytes) : Request :=
  { r with Body := some body, ContentLength := (body.length : Int) }

/-- The method `Server.sendSGLangConcurrentRequests`, called with the client's
writer in the state `w`. -/
def sendSGLangConcurrentRequests (c : Connector) (s : Server) (w : Response) (r : Request)
    (body : Bytes) (prefillHost : String) : Connected :=
  let prefillReq := cloneWithJSONBody r body
  let decodeReq := cloneWithJSONBody r body
  match c.prefillerProxyHandler prefillHost with
  | none =>
    { trace := [.prefillerProxyHandler prefillHost,
                .errorBadGateway (.prefillerProxy prefillHost)],
      w := c.errorBadGateway (.prefillerProxy prefillHost) w,
      pw := none }
  | some prefillHandler =>
    { trace := [.prefillerProxyHandler prefillHost, .goServeHTTP prefillHandler prefillReq,
                .ServeHTTP s.decoderProxy decodeReq],
      w := c.ServeHTTP s.decoderProxy decodeReq w,
      pw := some (c.ServeHTTP prefillHandler prefillReq {}) }

/-- The method `Server.runSGLangProtocol`, called with the client's writer in
the state `w`. -/
def runSGLangProtocol (c : Connector) (s : Server) (w : Response) (r : Request)
    (prefillPodHostPort : String) : Connected :=
  match parseSGLangRequest c r with
  | .error err =>
    { trace := [.errorJSONInvalid err], w := c.errorJSONInvalid err w, pw := none }
  | .ok requestData =>
    let roomID := generateSGLangRoomID c.nowUnixNano c.randIntn
    match addSGLangBootstrapInfo c requestData prefillPodHostPort roomID with
    | none => { trace := [.generateSGLangRoomID roomID, .panic], w := w, pw := none }
    | some bootstrapInfo =>
      match c.jsonMarshal bootstrapInfo with
      | none =>
        { trace := [.generateSGLangRoomID roomID, .jsonMarshal bootstrapInfo,
                    .errorJSONInvalid .jsonMarshal],
          w := c.errorJSONInvalid .jsonMarshal w, pw := none }
      | some body =>
        let sent := sendSGLangConcurrentRequests c s w r body prefillPodHostPort
        { sent with
          trace := [.generateSGLangRoomID roomID, .jsonMarshal bootstrapInfo] ++ sent.trace }

/-! ## The server after a request

Both request handlers take the server by pointer.  Neither body contains an
assignment to a field of `s` or a write to one of its maps (the only writes to
`dataParallelProxies` are those of `startDataParallel`), so the server each
leaves is the one it was called on. -/

/-- The server after `s.dataParallelHandler(w, r)`. -/
def Server.afterDataParallelHandler (s : Server) (_r : Request) : Server :=
  s

/-- The server after `s.chatCompletionsHandler(w, r)`. -/
def Server.afterChatCompletionsHandler (s : Server) (r : Request) : Server :=
  if s.forwardDataParallel ∧ (selectPrefillHostPort s (prefillHostPorts r)).2 = some "" then
    s.afterDataParallelHandler r
  else s

/-! ## Inputs of `TestServer_chatCompletionsHandler` -/

/-- The server the test builds: sampler `i % n`, no data-parallel table, a stub
decode handler; the sampling flag, `i`, the allowlist decision and the
`forwardDataParallel` flag are the arguments. -/
def testServer (sampling : Bool) (i : Int) (isAllowed : String → Bool) (forward : Bool) :
    Server where
  config := { EnablePrefillerSampling := sampling }
  prefillSamplerFn := fun n => Int.tmod i n
  allowlistValidator := { IsAllowed := isAllowed }
  forwardDataParallel := forward
  dataParallelProxies := []
  decoderProxy := .func 0

/-- A request whose only header is the prefill header with the given values. -/
def prefillRequest (values : List String) : Request where
  Header := [(.PrefillPodHeader, values)]

/-- A request whose only header is the data-parallel header with the given values. -/
def dataParallelRequest (values : List String) : Request where
  Header := [(.DataParallelPodHeader, values)]

/-- An allowlist that accepts every target but `"evil:80"`. -/
def allowAllButEvil (target : String) : Bool :=
  target != "evil:80"

/-! ## Inputs for `startDataParallel` -/

/-- A stand-in for `url.Parse` on the texts `startDataParallel` builds: after
`http://` the rest is the host, anything else is an error. -/
def parseHTTP (rawURL : String) : Option URL :=
  if "http://".data.isPrefixOf rawURL.data then
    some { Scheme := "http", Host := ⟨rawURL.data.drop 7⟩ }
  else none

/-- A server on port 8000 in front of a decoder on port 8200, with the given
number of data-parallel ranks and an empty table. -/
def rankServer (size : Int) : Server where
  config := { EnablePrefillerSampling := false, DataParallelSize := size }
  prefillSamplerFn := fun _ => 0
  allowlistValidator := { IsAllowed := fun _ => true }
  forwardDataParallel := true
  dataParallelProxies := []
  decoderProxy := .func 0
  port := "8000"
  decoderURL := { Scheme := "http", Host := "localhost:8200" }

/-! ## Inputs for the connector -/

/-- The bytes of the body `{}`. -/
def emptyObjectBody : Bytes := [123, 125]

/-- A connector environment: field names `bootstrap_host`, `bootstrap_port`
and `bootstrap_room`, the default port, a decoder that accepts only the body
`{}`, an encoder that answers with the number of fields, a prefill factory
that fails on the empty target only, error helpers that set the status, and
handlers that answer with a status of their own. -/
def testConnector : Connector where
  requestFieldBootstrapHost := "bootstrap_host"
  requestFieldBootstrapPort := "bootstrap_port"
  requestFieldBootstrapRoom := "bootstrap_room"
  sglangBootstrapPort := sglangBootstrapPortInit ""
  nowUnixNano := 1700000000000000000
  randIntn := 7
  jsonUnmarshal := fun body => if body = emptyObjectBody then some [] else none
  jsonMarshal := fun m => some [UInt8.ofNat m.length]
  prefillerProxyHandler := fun host =>
    if host = "" then none else some (.reverseProxy { Scheme := "http", Host := host } false)
  errorJSONInvalid := fun _ w => { w with statusCode := StatusBadRequest }
  errorBadGateway := fun _ w => { w with statusCode := StatusBadGateway }
  ServeHTTP := fun handler _ w =>
    match handler with
    | .func _ => { w with statusCode := 200 }
    | .reverseProxy _ _ => { w with statusCode := 500 }

/-- A second environment: the factory returns another handler for every target
and every handler but the decode stub answers 404. -/
def otherConnector : Connector :=
  { testConnector with
    prefillerProxyHandler := fun _ => some (.func 9)
    ServeHTTP := fun handler _ w =>
      match handler with
      | .func 0 => { w with statusCode := 200 }
      | _ => { w with statusCode := 404 } }

/-- A request without headers and with the given body. -/
def bodyRequest (body : Bytes) : Request where
  Header := []
  Body := some body
  ContentLength := (body.length : Int)

/-! ## Lemmas on the library functions -/

theorem TrimSpace_hasLeadingSpace (x : String) : hasLeadingSpace (TrimSpace x) = false := by
  unfold hasLeadingSpace TrimSpace
  simp only
  by_cases hnil : (x.data.dropWhile isSpace).rdropWhile isSpace = []
  · simp [hnil]
  · have hpre : (x.data.dropWhile isSpace).rdropWhile isSpace <+: x.data.dropWhile isSpace :=
      List.rdropWhile_prefix isSpace (x.data.dropWhile isSpace)
    have hne : x.data.dropWhile isSpace ≠ [] := by
      intro h
      rw [h] at hnil
      exact hnil (by simp)
    have hhead := hpre.head hnil
    have hnot := List.head_dropWhile_not isSpace x.data hne
    rw [List.head?_eq_head hnil]
    simp only
    rw [hhead]
    exact hnot

theorem TrimSpace_hasTrailingSpace (x : String) : hasTrailingSpace (TrimSpace x) = false := by
  unfold hasTrailingSpace TrimSpace
  simp only
  by_cases hnil : (x.data.dropWhile isSpace).rdropWhile isSpace = []
  · simp [hnil]
  · have hnot := List.rdropWhile_last_not isSpace (x.data.dropWhile isSpace) hnil
    rw [List.getLast?_eq_getLast _ hnil]
    simpa using hnot

theorem hasLeadingSpace_empty : hasLeadingSpace "" = false := rfl

theorem hasTrailingSpace_empty : hasTrailingSpace "" = false := rfl

theorem String_length_eq_zero (t : String) : t.length = 0 ↔ t = "" := by
  constructor
  · intro h
    have hd : t.data = [] := List.length_eq_zero.mp h
    exact String.ext hd
  · rintro rfl
    rfl

theorem SplitComma_JoinComma (vs : List String) (hvs : vs ≠ [])
    (hcomma : ∀ v ∈ vs, ',' ∉ v.data) : SplitComma (JoinComma vs) = vs := by
  unfold SplitComma JoinComma
  simp only
  rw [List.splitOn_intercalate]
  · rw [List.map_map]
    have hid : (String.mk ∘ String.data) = id := by
      funext v
      rfl
    rw [hid, List.map_id]
  · intro l hl
    obtain ⟨v, hv, rfl⟩ := List.mem_map.mp hl
    exact hcomma v hv
  · simpa using hvs

theorem SplitComma_of_no_comma (v : String) (h : ',' ∉ v.data) : SplitComma v = [v] := by
  have := SplitComma_JoinComma [v] (by simp) (by simpa using h)
  simpa [JoinComma, List.intercalate] using this

/-! ## Lemmas on `Itoa`, `Atoi` and `JoinHostPort` -/

theorem int64_of_fits (x : Int) (h : fitsInt64 x) : int64 x = x := by
  unfold fitsInt64 at h
  unfold int64
  omega

theorem digitValue_digitChar (d : Nat) (h : d < 10) : digitValue (digitChar d) = some d := by
  interval_cases d <;> decide

theorem digitChar_ne_sign (d : Nat) (h : d < 10) : digitChar d ≠ '-' ∧ digitChar d ≠ '+' := by
  interval_cases d <;> decide

theorem parseDecimal_append (l : List Char) (c : Char) (acc : Nat) :
    parseDecimal (l ++ [c]) acc =
      (parseDecimal l acc).bind (fun a => (digitValue c).map (fun d => a * 10 + d)) := by
  induction l generalizing acc with
  | nil =>
    simp only [List.nil_append, parseDecimal, Option.some_bind]
    cases digitValue c <;> rfl
  | cons x xs ih =>
    simp only [List.cons_append, parseDecimal]
    cases digitValue x with
    | none => rfl
    | some d => exact ih (acc * 10 + d)

theorem parseDecimal_formatDecimal (fuel n : Nat) (h : n < fuel) :
    parseDecimal (formatDecimal fuel n) 0 = some n := by
  induction fuel generalizing n with
  | zero => omega
  | succ fuel ih =>
    unfold formatDecimal
    split_ifs with hn
    · simp [parseDecimal, digitValue_digitChar n hn]
    · rw [parseDecimal_append, ih (n / 10) (by omega),
        digitValue_digitChar (n % 10) (Nat.mod_lt n (by omega))]
      simp only [Option.some_bind, Option.map_some', Option.some.injEq]
      omega

theorem formatDecimal_head (fuel n : Nat) (h : n < fuel) :
    ∃ d rest, d < 10 ∧ formatDecimal fuel n = digitChar d :: rest := by
  induction fuel generalizing n with
  | zero => omega
  | succ fuel ih =>
    unfold formatDecimal
    split_ifs with hn
    · exact ⟨n, [], hn, rfl⟩
    · obtain ⟨d, rest, hd, hrest⟩ := ih (n / 10) (by omega)
      exact ⟨d, rest ++ [digitChar (n % 10)], hd, by rw [hrest]; rfl⟩

theorem Atoi_of_digits (c : Char) (rest : List Char) (n : Nat) (hm : c ≠ '-') (hp : c ≠ '+')
    (hparse : parseDecimal (c :: rest) 0 = some n) (hn : n < 2 ^ 63) :
    Atoi ⟨c :: rest⟩ = some (n : Int) := by
  unfold Atoi
  split
  · rename_i heq
    simp at heq
  · rename_i ds heq
    simp only [List.cons.injEq] at heq
    exact absurd heq.1 hm
  · rename_i ds heq
    simp only [List.cons.injEq] at heq
    exact absurd heq.1 hp
  · simp only [hparse, hn, ↓reduceIte]

theorem Atoi_of_minus (rest : List Char) (n : Nat) (hne : rest ≠ [])
    (hparse : parseDecimal rest 0 = some n) (hn : n ≤ 2 ^ 63) :
    Atoi ⟨'-' :: rest⟩ = some (-(n : Int)) := by
  unfold Atoi
  simp only [hne, hparse, hn, ↓reduceIte]

theorem Atoi_Itoa (i : Int) (h : fitsInt64 i) : Atoi (Itoa i) = some i := by
  unfold fitsInt64 at h
  have hlt : i.natAbs < i.natAbs + 1 := Nat.lt_succ_self _
  have hparse := parseDecimal_formatDecimal (i.natAbs + 1) i.natAbs hlt
  obtain ⟨d, rest, hd, hhead⟩ := formatDecimal_head (i.natAbs + 1) i.natAbs hlt
  unfold Itoa
  split_ifs with hneg
  · have hn : i.natAbs ≤ 2 ^ 63 := by omega
    rw [Atoi_of_minus _ i.natAbs (by rw [hhead]; simp) hparse hn]
    congr 1
    omega
  · have hn : i.natAbs < 2 ^ 63 := by omega
    rw [hhead] at hparse ⊢
    rw [Atoi_of_digits _ rest i.natAbs (digitChar_ne_sign d hd).1 (digitChar_ne_sign d hd).2
      hparse hn]
    congr 1
    omega

theorem Itoa_injective (i j : Int) (hi : fitsInt64 i) (hj : fitsInt64 j)
    (h : Itoa i = Itoa j) : i = j := by
  have h1 := Atoi_Itoa i hi
  rw [h, Atoi_Itoa j hj] at h1
  exact (Option.some.inj h1).symm

theorem JoinHostPort_injective (host port port' : String)
    (h : JoinHostPort host port = JoinHostPort host port') : port = port' := by
  unfold JoinHostPort at h
  split_ifs at h
  · have hd := congrArg String.data h
    simp only [String.data_append] at hd
    exact String.ext (List.append_cancel_left hd)
  · have hd := congrArg String.data h
    simp only [String.data_append] at hd
    exact String.ext (List.append_cancel_left hd)

theorem Atoi_fits (text : String) (n : Int) (h : Atoi text = some n) : fitsInt64 n := by
  unfold Atoi at h
  unfold fitsInt64
  split at h
  · cases h
  · split_ifs at h
    split at h
    · split_ifs at h
      cases h
      omega
    · cases h
  · split_ifs at h
    split at h
    · split_ifs at h
      cases h
      omega
    · cases h
  · split at h
    · split_ifs at h
      cases h
      omega
    · cases h

/-! ## Lemmas on the data-parallel table -/

theorem mapSet_of_not_mem (m : List (String × Option Handler)) (key : String)
    (value : Option Handler) (h : key ∉ m.map Prod.fst) :
    mapSet m key value = m ++ [(key, value)] := by
  unfold mapSet
  rw [if_neg h]

theorem lookup_append_self (m : List (String × Option Handler)) (key : String)
    (value : Option Handler) (h : key ∉ m.map Prod.fst) :
    (m ++ [(key, value)]).lookup key = some value := by
  induction m with
  | nil => simp [List.lookup]
  | cons kv rest ih =>
    obtain ⟨k, v⟩ := kv
    simp only [List.map_cons, List.mem_cons, not_or] at h
    have hk : (key == k) = false := by simpa using h.1
    simp only [List.cons_append, List.lookup_cons, hk]
    exact ih h.2

theorem lookup_append_other (m : List (String × Option Handler)) (key key' : String)
    (value : Option Handler) (h : key' ≠ key) :
    (m ++ [(key, value)]).lookup key' = m.lookup key' := by
  induction m with
  | nil =>
    have hk : (key' == key) = false := by simpa using h
    simp [List.lookup, hk]
  | cons kv rest ih =>
    obtain ⟨k, v⟩ := kv
    simp only [List.cons_append, List.lookup_cons]
    cases hk : (key' == k)
    · exact ih
    · rfl

theorem mem_rangeInt (n idx : Int) : idx ∈ rangeInt n ↔ 0 ≤ idx ∧ idx < n := by
  unfold rangeInt
  simp only [List.mem_map, List.mem_range]
  constructor
  · rintro ⟨k, hk, rfl⟩
    simp only [Int.ofNat_eq_coe]
    omega
  · rintro ⟨h0, hn⟩
    refine ⟨idx.toNat, by omega, ?_⟩
    simp only [Int.ofNat_eq_coe]
    omega

theorem rangeInt_nodup (n : Int) : (rangeInt n).Nodup := by
  unfold rangeInt
  apply List.Nodup.map
  · intro a b hab
    simpa using hab
  · exact List.nodup_range _

theorem rangeInt_length (n : Int) : (rangeInt n).length = n.toNat := by
  unfold rangeInt
  simp

theorem fillDataParallelProxies_spec (podIP : String) (urlParse : String → Option URL)
    (s : Server) (basePort baseDecoderPort : Int) (idxs : List Int) :
    ∀ table table' : List (String × Option Handler),
    fillDataParallelProxies podIP urlParse s basePort baseDecoderPort idxs table =
      (table', none) →
    (idxs.map (rankHostPort podIP basePort)).Nodup →
    (∀ idx ∈ idxs, rankHostPort podIP basePort idx ∉ table.map Prod.fst) →
    table'.map Prod.fst = table.map Prod.fst ++ idxs.map (rankHostPort podIP basePort) ∧
    (∀ k, k ∉ idxs.map (rankHostPort podIP basePort) → table'.lookup k = table.lookup k) ∧
    (∀ idx ∈ idxs, ∃ u, urlParse (rankDecoderURL s baseDecoderPort idx) = some u ∧
      table'.lookup (rankHostPort podIP basePort idx) =
        some (some (createDecoderProxyHandler u s.config.DecoderInsecureSkipVerify))) := by
  induction idxs with
  | nil =>
    intro table table' hfill _ _
    simp only [fillDataParallelProxies, Prod.mk.injEq, and_true] at hfill
    subst hfill
    simp
  | cons idx rest ih =>
    intro table table' hfill hnodup hfresh
    unfold fillDataParallelProxies at hfill
    simp only at hfill
    cases hparse : urlParse (rankDecoderURL s baseDecoderPort idx) with
    | none =>
      rw [hparse] at hfill
      simp at hfill
    | some u =>
      rw [hparse] at hfill
      simp only at hfill
      have hkey : rankHostPort podIP basePort idx ∉ table.map Prod.fst :=
        hfresh idx (List.mem_cons_self _ _)
      have hset := mapSet_of_not_mem table (rankHostPort podIP basePort idx)
        (some (createDecoderProxyHandler u s.config.DecoderInsecureSkipVerify)) hkey
      rw [List.map_cons, List.nodup_cons] at hnodup
      change fillDataParallelProxies podIP urlParse s basePort baseDecoderPort rest
        (mapSet table (rankHostPort podIP basePort idx)
          (some (createDecoderProxyHandler u s.config.DecoderInsecureSkipVerify))) =
        (table', none) at hfill
      rw [hset] at hfill
      have hfresh' : ∀ idx' ∈ rest, rankHostPort podIP basePort idx' ∉
          (table ++ [(rankHostPort podIP basePort idx,
            some (createDecoderProxyHandler u s.config.DecoderInsecureSkipVerify))]).map
            Prod.fst := by
        intro idx' hmem
        simp only [List.map_append, List.map_cons, List.map_nil, List.mem_append,
          List.mem_singleton, not_or]
        refine ⟨hfresh idx' (List.mem_cons_of_mem _ hmem), ?_⟩
        intro heq
        exact hnodup.1 (heq ▸ List.mem_map_of_mem _ hmem)
      obtain ⟨hkeys, hother, hranks⟩ := ih _ table' hfill hnodup.2 hfresh'
      refine ⟨?_, ?_, ?_⟩
      · rw [hkeys]
        simp
      · intro k hk
        simp only [List.map_cons, List.mem_cons, not_or] at hk
        rw [hother k hk.2, lookup_append_other _ _ _ _ hk.1]
      · intro idx' hmem
        rcases List.mem_cons.mp hmem with rfl | hmem'
        · refine ⟨u, hparse, ?_⟩
          rw [hother _ hnodup.1, lookup_append_self _ _ _ hkey]
        · exact hranks idx' hmem'

theorem int64_fits (x : Int) : fitsInt64 (int64 x) := by
  unfold fitsInt64 int64
  omega

theorem rankHostPort_nodup (podIP : String) (basePort n : Int) :
    ((rangeInt (int64 n)).map (rankHostPort podIP basePort)).Nodup := by
  apply List.Nodup.map_on _ (rangeInt_nodup _)
  intro x hx y hy hxy
  unfold rankHostPort at hxy
  have h := Itoa_injective _ _ (int64_fits _) (int64_fits _) (JoinHostPort_injective _ _ _ hxy)
  have hx' := (mem_rangeInt _ _).mp hx
  have hy' := (mem_rangeInt _ _).mp hy
  have hn := int64_fits n
  unfold fitsInt64 at hn
  unfold int64 at h
  omega

theorem rankHostPort_ne_port (podIP port : String) (basePort n idx : Int)
    (hport : Atoi port = some basePort) (hidx : idx ∈ rangeInt (int64 n)) :
    rankHostPort podIP basePort idx ≠ JoinHostPort podIP port := by
  intro h
  unfold rankHostPort at h
  have hp := JoinHostPort_injective _ _ _ h
  rw [← hp, Atoi_Itoa _ (int64_fits _)] at hport
  have heq := Option.some.inj hport
  have hidx' := (mem_rangeInt _ _).mp hidx
  have hn := int64_fits n
  unfold fitsInt64 at hn
  unfold int64 at heq
  omega

/-- What a successful `startDataParallel` leaves, in terms of the loop index. -/
theorem startDataParallel_spec (podIP : String) (urlParse : String → Option URL) (s : Server)
    (basePort baseDecoderPort : Int)
    (hP : Atoi s.port = some basePort) (hD : Atoi s.decoderURL.Port = some baseDecoderPort)
    (hempty : s.dataParallelProxies = [])
    (hok : (startDataParallel podIP urlParse s).err = none) :
    ((startDataParallel podIP urlParse s).server.dataParallelProxies.map Prod.fst =
      JoinHostPort podIP s.port ::
        (rangeInt (int64 (s.config.DataParallelSize - 1))).map (rankHostPort podIP basePort)) ∧
    ((startDataParallel podIP urlParse s).server.dataParallelProxies.lookup
      (JoinHostPort podIP s.port) = some (some s.decoderProxy)) ∧
    (∀ idx ∈ rangeInt (int64 (s.config.DataParallelSize - 1)),
      ∃ u, urlParse (rankDecoderURL s baseDecoderPort idx) = some u ∧
        (startDataParallel podIP urlParse s).server.dataParallelProxies.lookup
          (rankHostPort podIP basePort idx) =
          some (some (createDecoderProxyHandler u s.config.DecoderInsecureSkipVerify))) ∧
    ((startDataParallel podIP urlParse s).subServers =
      (rangeInt (int64 (s.config.DataParallelSize - 1))).map
        (subServer urlParse (startDataParallel podIP urlParse s).server basePort
          baseDecoderPort)) ∧
    (startDataParallel podIP urlParse s).server.decoderURL = s.decoderURL ∧
    (startDataParallel podIP urlParse s).server.config = s.config := by
  have hfresh0 : ∀ idx ∈ rangeInt (int64 (s.config.DataParallelSize - 1)),
      rankHostPort podIP basePort idx ∉
        ([(JoinHostPort podIP s.port, some s.decoderProxy)] :
          List (String × Option Handler)).map Prod.fst := by
    intro idx hidx
    simp only [List.map_cons, List.map_nil, List.mem_singleton]
    exact rankHostPort_ne_port podIP s.port basePort _ idx hP hidx
  have hnodup := rankHostPort_nodup podIP basePort (s.config.DataParallelSize - 1)
  unfold startDataParallel at hok ⊢
  simp only [hP, hD, hempty] at hok ⊢
  have hset : mapSet [] (JoinHostPort podIP s.port) (some s.decoderProxy) =
      [(JoinHostPort podIP s.port, some s.decoderProxy)] := rfl
  rw [hset] at hok ⊢
  generalize hfill : fillDataParallelProxies podIP urlParse s basePort baseDecoderPort
    (rangeInt (int64 (s.config.DataParallelSize - 1)))
    [(JoinHostPort podIP s.port, some s.decoderProxy)] = res at hok ⊢
  obtain ⟨table', err⟩ := res
  cases err with
  | some e => simp at hok
  | none =>
    obtain ⟨hkeys, hother, hranks⟩ := fillDataParallelProxies_spec podIP urlParse s basePort
      baseDecoderPort _ _ table' hfill hnodup hfresh0
    refine ⟨by simpa using hkeys, ?_, hranks, rfl, rfl, rfl⟩
    simp only
    rw [hother]
    · simp [List.lookup]
    · intro hmem
      obtain ⟨idx, hidx, heq⟩ := List.mem_map.mp hmem
      exact rankHostPort_ne_port podIP s.port basePort _ idx hP hidx heq

theorem int64_size_pred (size : Int) (hpos : 1 ≤ size) (hsize : fitsInt64 size) :
    int64 (size - 1) = size - 1 := by
  apply int64_of_fits
  unfold fitsInt64 at *
  omega

theorem rangeInt_get? (n : Int) (k : Nat) (hk : k < n.toNat) :
    (rangeInt n).get? k = some (k : Int) := by
  unfold rangeInt
  rw [List.get?_eq_getElem?, List.getElem?_map, List.getElem?_range hk]
  rfl

theorem subServer_ok (urlParse : String → Option URL) (s : Server)
    (basePort baseDecoderPort idx : Int) (u : URL)
    (hparse : urlParse (rankDecoderURL s baseDecoderPort idx) = some u) :
    ∃ clone, subServer urlParse s basePort baseDecoderPort idx = .ok clone ∧
      clone.port = Itoa (int64 (basePort + idx + 1)) ∧ clone.decoderURL = u ∧
      clone.forwardDataParallel = false ∧ clone.config = s.config ∧
      clone.dataParallelProxies = s.dataParallelProxies := by
  unfold subServer
  simp only [hparse]
  exact ⟨_, rfl, rfl, rfl, rfl, rfl, rfl⟩

/-! ## Lemmas on request body maps -/

theorem mem_keys_iff_lookup (m : JSONObject) (key : String) :
    key ∈ m.map Prod.fst ↔ (m.lookup key).isSome = true := by
  rw [List.lookup_isSome_iff]
  simp only [List.mem_map, beq_iff_eq]
  constructor
  · rintro ⟨p, hp, rfl⟩
    exact ⟨p, hp, rfl⟩
  · rintro ⟨p, hp, h⟩
    exact ⟨p, hp, h.symm⟩

theorem lookup_map_replace (m : JSONObject) (key key' : String) (value : Value) :
    (m.map (fun kv => if kv.1 = key then (key, value) else kv)).lookup key' =
      if key' = key then (if key ∈ m.map Prod.fst then some value else none)
      else m.lookup key' := by
  induction m with
  | nil => simp [List.lookup]
  | cons kv rest ih =>
    obtain ⟨k, v⟩ := kv
    simp only [List.map_cons, List.mem_cons]
    by_cases hk : k = key
    · subst hk
      simp only [↓reduceIte, List.lookup_cons, true_or]
      by_cases hk' : key' = k
      · simp [hk']
      · have hb : (key' == k) = false := by simpa using hk'
        simp only [hb, hk', ↓reduceIte]
        rw [ih, if_neg hk']
    · simp only [hk, ↓reduceIte, List.lookup_cons]
      by_cases hk' : key' = key
      · subst hk'
        have hb : (key' == k) = false := by simpa using fun h => hk h.symm
        have hne : ¬ key' = k := fun h => hk h.symm
        simp only [hb, ↓reduceIte, hne, false_or]
        rw [ih, if_pos rfl]
      · cases hb : (key' == k)
        · simp only [hk', ↓reduceIte]
          rw [ih, if_neg hk']
        · simp [hk']

theorem lookup_setField (m : JSONObject) (key key' : String) (value : Value) :
    (setField m key value).lookup key' = if key' = key then some value else m.lookup key' := by
  unfold setField
  split_ifs with hmem hk hk
  · rw [lookup_map_replace, if_pos hk, if_pos hmem]
  · rw [lookup_map_replace, if_neg hk]
  · subst hk
    have hnone : m.lookup key' = none := by
      cases h : m.lookup key' with
      | none => rfl
      | some v =>
        exact absurd ((mem_keys_iff_lookup m key').mpr (by rw [h]; rfl)) hmem
    rw [List.lookup_append, hnone]
    simp [List.lookup]
  · have hb : (key' == key) = false := by simpa using hk
    rw [List.lookup_append]
    simp [List.lookup, hb]

theorem lookup_foldl_setField (m : JSONObject) :
    ∀ acc : JSONObject, (m.map Prod.fst).Nodup → ∀ key,
      (m.foldl (fun acc kv => setField acc kv.1 kv.2) acc).lookup key =
        (m.lookup key).or (acc.lookup key) := by
  induction m with
  | nil =>
    intro acc _ key
    simp [List.lookup]
  | cons kv rest ih =>
    intro acc hnodup key
    obtain ⟨k, v⟩ := kv
    rw [List.map_cons, List.nodup_cons] at hnodup
    simp only [List.foldl_cons]
    rw [ih _ hnodup.2 key, lookup_setField, List.lookup_cons]
    by_cases hk : key = k
    · subst hk
      have hnone : rest.lookup key = none := by
        cases h : rest.lookup key with
        | none => rfl
        | some v' =>
          exact absurd ((mem_keys_iff_lookup rest key).mpr (by rw [h]; rfl)) hnodup.1
      simp [hnone]
    · have hb : (key == k) = false := by simpa using hk
      simp [hk, hb]

theorem getBootstrapHost_eq (prefillHostPort : String) :
    getBootstrapHost prefillHostPort =
      some ((SplitColon prefillHostPort).headD "") ∧ SplitColon prefillHostPort ≠ [] := by
  have hne : SplitColon prefillHostPort ≠ [] := by
    unfold SplitColon
    intro h
    exact List.splitOnP_ne_nil _ _ (List.map_eq_nil_iff.mp h)
  refine ⟨?_, hne⟩
  unfold getBootstrapHost index
  cases hparts : SplitColon prefillHostPort with
  | nil => exact absurd hparts hne
  | cons x rest => simp

theorem sendSGLangConcurrentRequests_none (c : Connector) (s : Server) (w : Response)
    (r : Request) (body : Bytes) (prefillHost : String)
    (h : c.prefillerProxyHandler prefillHost = none) :
    sendSGLangConcurrentRequests c s w r body prefillHost =
      { trace := [.prefillerProxyHandler prefillHost,
                  .errorBadGateway (.prefillerProxy prefillHost)],
        w := c.errorBadGateway (.prefillerProxy prefillHost) w,
        pw := none } := by
  unfold sendSGLangConcurrentRequests
  simp only [h]

theorem sendSGLangConcurrentRequests_some (c : Connector) (s : Server) (w : Response)
    (r : Request) (body : Bytes) (prefillHost : String) (prefillHandler : Handler)
    (h : c.prefillerProxyHandler prefillHost = some prefillHandler) :
    sendSGLangConcurrentRequests c s w r body prefillHost =
      { trace := [.prefillerProxyHandler prefillHost,
                  .goServeHTTP prefillHandler (cloneWithJSONBody r body),
                  .ServeHTTP s.decoderProxy (cloneWithJSONBody r body)],
        w := c.ServeHTTP s.decoderProxy (cloneWithJSONBody r body) w,
        pw := some (c.ServeHTTP prefillHandler (cloneWithJSONBody r body) {}) } := by
  unfold sendSGLangConcurrentRequests
  simp only [h]

theorem addSGLangBootstrapInfo_isSome (c : Connector) (requestData : JSONObject)
    (prefillHostPort : String) (roomID : Int) :
    ∃ info, addSGLangBootstrapInfo c requestData prefillHostPort roomID = some info := by
  unfold addSGLangBootstrapInfo
  simp only [(getBootstrapHost_eq prefillHostPort).1]
  exact ⟨_, rfl⟩

theorem parseSGLangRequest_ok (c : Connector) (r : Request) (raw : Bytes)
    (requestData : JSONObject) (hbody : r.Body = some raw)
    (hjson : c.jsonUnmarshal raw = some requestData) :
    parseSGLangRequest c r = .ok requestData := by
  unfold parseSGLangRequest
  simp only [hbody, hjson]

theorem runSGLangProtocol_marshal_none (c : Connector) (s : Server) (w : Response)
    (r : Request) (prefillPodHostPort : String) (requestData info : JSONObject)
    (hparse : parseSGLangRequest c r = .ok requestData)
    (hadd : addSGLangBootstrapInfo c requestData prefillPodHostPort
      (generateSGLangRoomID c.nowUnixNano c.randIntn) = some info)
    (hmarshal : c.jsonMarshal info = none) :
    (runSGLangProtocol c s w r prefillPodHostPort).trace =
      [.generateSGLangRoomID (generateSGLangRoomID c.nowUnixNano c.randIntn),
       .jsonMarshal info, .errorJSONInvalid .jsonMarshal] := by
  unfold runSGLangProtocol
  simp only [hparse, hadd, hmarshal]

theorem runSGLangProtocol_marshal_some (c : Connector) (s : Server) (w : Response)
    (r : Request) (prefillPodHostPort : String) (requestData info : JSONObject)
    (marshalled : Bytes)
    (hparse : parseSGLangRequest c r = .ok requestData)
    (hadd : addSGLangBootstrapInfo c requestData prefillPodHostPort
      (generateSGLangRoomID c.nowUnixNano c.randIntn) = some info)
    (hmarshal : c.jsonMarshal info = some marshalled) :
    (runSGLangProtocol c s w r prefillPodHostPort).trace =
      [.generateSGLangRoomID (generateSGLangRoomID c.nowUnixNano c.randIntn),
       .jsonMarshal info] ++
        (sendSGLangConcurrentRequests c s w r marshalled prefillPodHostPort).trace := by
  unfold runSGLangProtocol
  simp only [hparse, hadd, hmarshal]

theorem sendSGLangConcurrentRequests_countP_marshal (c : Connector) (s : Server)
    (w : Response) (r : Request) (body : Bytes) (prefillHost : String) :
    (sendSGLangConcurrentRequests c s w r body prefillHost).trace.countP
      SGLangEvent.isJSONMarshal = 0 := by
  cases hf : c.prefillerProxyHandler prefillHost with
  | none =>
    rw [sendSGLangConcurrentRequests_none c s w r body prefillHost hf]
    rfl
  | some h =>
    rw [sendSGLangConcurrentRequests_some c s w r body prefillHost h hf]
    rfl

theorem getBootstrapHost_JoinHostPort (host port : String) (h : ':' ∉ host.data) :
    getBootstrapHost (JoinHostPort host port) = some host := by
  rw [(getBootstrapHost_eq _).1]
  unfold JoinHostPort SplitColon
  rw [if_neg h]
  have hd : (host ++ ":" ++ port).data = host.data ++ ':' :: port.data := by
    simp [String.data_append]
  rw [hd, List.splitOn, List.splitOnP_first]
  · rfl
  · intro x hx hxc
    have : x = ':' := by simpa using hxc
    exact h (this ▸ hx)
  · simp

theorem splitOn_colon_head (l : List Char) :
    (l.splitOn ':').head? = some (l.takeWhile (fun c => c ≠ ':')) := by
  have hsplit := List.takeWhile_append_dropWhile (fun c => decide (c ≠ ':')) l
  cases hdrop : l.dropWhile (fun c => decide (c ≠ ':')) with
  | nil =>
    have hall : ∀ x ∈ l, ¬ (x == ':') = true := by
      intro x hx
      have := (List.dropWhile_eq_nil_iff.mp hdrop) x hx
      simpa using this
    have htake : l.takeWhile (fun c => decide (c ≠ ':')) = l := by
      rw [hdrop, List.append_nil] at hsplit
      exact hsplit
    rw [htake, List.splitOn, List.splitOnP_eq_single _ _ hall]
    rfl
  | cons c rest =>
    have hc : (c == ':') = true := by
      have hnot := List.head_dropWhile_not (fun c => decide (c ≠ ':')) l
        (by rw [hdrop]; simp)
      simp only [hdrop, List.head_cons] at hnot
      simpa using hnot
    have hall : ∀ x ∈ l.takeWhile (fun c => decide (c ≠ ':')), ¬ (x == ':') = true := by
      intro x hx
      have := List.mem_takeWhile_imp hx
      simpa using this
    rw [hdrop] at hsplit
    conv_lhs => rw [← hsplit]
    rw [List.splitOn, List.splitOnP_first _ _ hall c hc]
    rfl

theorem getBootstrapHost_takeWhile (prefillHostPort : String) :
    getBootstrapHost prefillHostPort =
      some ⟨prefillHostPort.data.takeWhile (fun c => c ≠ ':')⟩ := by
  rw [(getBootstrapHost_eq prefillHostPort).1]
  unfold SplitColon
  have h := splitOn_colon_head prefillHostPort.data
  cases hparts : prefillHostPort.data.splitOn ':' with
  | nil =>
    rw [hparts] at h
    simp at h
  | cons x rest =>
    rw [hparts] at h
    simp only [List.head?_cons, Option.some.injEq] at h
    simp [h]

theorem takeWhile_longest (p : Char → Bool) (l pre : List Char) (hpre : pre <+: l)
    (hall : ∀ c ∈ pre, p c = true) : pre.length ≤ (l.takeWhile p).length := by
  induction l generalizing pre with
  | nil =>
    have : pre = [] := List.prefix_nil.mp hpre
    simp [this]
  | cons x xs ih =>
    cases pre with
    | nil => simp
    | cons y ys =>
      obtain ⟨rfl, hys⟩ := List.cons_prefix_cons.mp hpre
      have hy : p y = true := hall y (List.mem_cons_self _ _)
      rw [List.takeWhile_cons_of_pos hy]
      simp only [List.length_cons, Nat.add_le_add_iff_right]
      exact ih ys hys (fun c hc => hall c (List.mem_cons_of_mem _ hc))

/-! ## Lemmas on the selection and the dispatch -/

theorem selectPrefillHostPort_trace (s : Server) (cs : List String) (e : Event)
    (he : e ∈ (selectPrefillHostPort s cs).1) : e = .prefillSamplerFn cs.length := by
  unfold selectPrefillHostPort at he
  simp only at he
  split_ifs at he <;> simp_all

theorem selectPrefillHostPort_trimmed (s : Server) (cs : List String) (p : String)
    (hp : (selectPrefillHostPort s cs).2 = some p) : p = "" ∨ ∃ x, p = TrimSpace x := by
  unfold selectPrefillHostPort at hp
  simp only at hp
  split_ifs at hp
  · obtain ⟨x, -, hx⟩ := Option.map_eq_some'.mp hp
    exact Or.inr ⟨x, hx.symm⟩
  · obtain ⟨x, -, hx⟩ := Option.map_eq_some'.mp hp
    exact Or.inr ⟨x, hx.symm⟩
  · exact Or.inl (Option.some.inj hp).symm

theorem outcome_selectPrefillHostPort (s : Server) (cs : List String) :
    outcome (selectPrefillHostPort s cs).1 = [] := by
  unfold outcome
  rw [List.filter_eq_nil_iff]
  intro e he
  rw [selectPrefillHostPort_trace s cs e he]
  simp [Event.isEffect]

theorem chatCompletionsHandler_of_selected (s : Server) (r : Request) (p : String)
    (hp : (selectPrefillHostPort s (prefillHostPorts r)).2 = some p) :
    chatCompletionsHandler s r =
      (selectPrefillHostPort s (prefillHostPorts r)).1 ++ dispatch s r p := by
  unfold chatCompletionsHandler
  simp only [hp]

theorem dispatch_of_rejected (s : Server) (r : Request) (t : String) (hne : t ≠ "")
    (hrej : s.allowlistValidator.IsAllowed t = false) :
    dispatch s r t =
      [.IsAllowed t,
       .httpError "Forbidden: prefill target not allowed by SSRF protection" 403] := by
  unfold dispatch
  have hlen : ¬ t.length = 0 := fun h => hne ((String_length_eq_zero t).mp h)
  simp [hlen, hrej, StatusForbidden]

theorem dispatch_of_allowed (s : Server) (r : Request) (t : String) (hne : t ≠ "")
    (hok : s.allowlistValidator.IsAllowed t = true) :
    dispatch s r t = [.IsAllowed t, .runConnectorProtocol r t] := by
  unfold dispatch
  have hlen : ¬ t.length = 0 := fun h => hne ((String_length_eq_zero t).mp h)
  simp [hlen, hok]

theorem dataParallelHandler_absent (s : Server) (r : Request)
    (h : r.Header.Get .DataParallelPodHeader = "") : dataParallelHandler s r = ([], false) := by
  unfold dataParallelHandler
  simp [h]

theorem dataParallelHandler_hit (s : Server) (r : Request) (handler : Handler)
    (h : r.Header.Get .DataParallelPodHeader ≠ "")
    (hh : s.dataParallelProxy (r.Header.Get .DataParallelPodHeader) = some handler) :
    dataParallelHandler s r =
      ([.dataParallelLookup (r.Header.Get .DataParallelPodHeader), .ServeHTTP handler r],
        true) := by
  unfold dataParallelHandler
  simp [h, hh]

theorem dataParallelHandler_miss (s : Server) (r : Request)
    (h : r.Header.Get .DataParallelPodHeader ≠ "")
    (hh : s.dataParallelProxy (r.Header.Get .DataParallelPodHeader) = none) :
    dataParallelHandler s r =
      ([.dataParallelLookup (r.Header.Get .DataParallelPodHeader), .WriteHeader 400],
        true) := by
  unfold dataParallelHandler
  simp [h, hh, StatusBadRequest]

theorem dispatch_empty_off (s : Server) (r : Request) (hf : s.forwardDataParallel = false) :
    dispatch s r "" = [] := by
  unfold dispatch
  simp [hf]

theorem dispatch_empty_on (s : Server) (r : Request) (hf : s.forwardDataParallel = true) :
    dispatch s r "" =
      if (dataParallelHandler s r).2 = false then
        .dataParallelHandler r :: (dataParallelHandler s r).1 ++ [.ServeHTTP s.decoderProxy r]
      else
        .dataParallelHandler r :: (dataParallelHandler s r).1 := by
  unfold dispatch
  simp [hf]

theorem dispatch_empty_absent (s : Server) (r : Request) (hf : s.forwardDataParallel = true)
    (h : r.Header.Get .DataParallelPodHeader = "") :
    dispatch s r "" = [.dataParallelHandler r, .ServeHTTP s.decoderProxy r] := by
  rw [dispatch_empty_on s r hf, dataParallelHandler_absent s r h]
  rfl

theorem dispatch_empty_hit (s : Server) (r : Request) (handler : Handler)
    (hf : s.forwardDataParallel = true) (h : r.Header.Get .DataParallelPodHeader ≠ "")
    (hh : s.dataParallelProxy (r.Header.Get .DataParallelPodHeader) = some handler) :
    dispatch s r "" =
      [.dataParallelHandler r, .dataParallelLookup (r.Header.Get .DataParallelPodHeader),
       .ServeHTTP handler r] := by
  rw [dispatch_empty_on s r hf, dataParallelHandler_hit s r handler h hh]
  rfl

theorem dispatch_empty_miss (s : Server) (r : Request)
    (hf : s.forwardDataParallel = true) (h : r.Header.Get .DataParallelPodHeader ≠ "")
    (hh : s.dataParallelProxy (r.Header.Get .DataParallelPodHeader) = none) :
    dispatch s r "" =
      [.dataParallelHandler r, .dataParallelLookup (r.Header.Get .DataParallelPodHeader),
       .WriteHeader 400] := by
  rw [dispatch_empty_on s r hf, dataParallelHandler_miss s r h hh]
  rfl

/-- The four shapes of the fallback path. -/
theorem dispatch_empty_cases (s : Server) (r : Request) :
    dispatch s r "" = [] ∨
    dispatch s r "" = [.dataParallelHandler r, .ServeHTTP s.decoderProxy r] ∨
    (∃ handler, dispatch s r "" =
      [.dataParallelHandler r, .dataParallelLookup (r.Header.Get .DataParallelPodHeader),
       .ServeHTTP handler r]) ∨
    dispatch s r "" =
      [.dataParallelHandler r, .dataParallelLookup (r.Header.Get .DataParallelPodHeader),
       .WriteHeader 400] := by
  cases hf : s.forwardDataParallel
  · exact Or.inl (dispatch_empty_off s r hf)
  · by_cases h : r.Header.Get .DataParallelPodHeader = ""
    · exact Or.inr (Or.inl (dispatch_empty_absent s r hf h))
    · cases hh : s.dataParallelProxy (r.Header.Get .DataParallelPodHeader) with
      | none => exact Or.inr (Or.inr (Or.inr (dispatch_empty_miss s r hf h hh)))
      | some handler =>
        exact Or.inr (Or.inr (Or.inl ⟨handler, dispatch_empty_hit s r handler hf h hh⟩))

/-- No path of the dispatch calls the sampler. -/
theorem dispatch_no_sampler (s : Server) (r : Request) (p : String) (n : Int) :
    Event.prefillSamplerFn n ∉ dispatch s r p := by
  intro hmem
  by_cases hp : p = ""
  · subst hp
    rcases dispatch_empty_cases s r with h | h | ⟨handler, h⟩ | h <;>
      · rw [h] at hmem
        simp at hmem
  · cases hok : s.allowlistValidator.IsAllowed p
    · rw [dispatch_of_rejected s r p hp hok] at hmem
      simp at hmem
    · rw [dispatch_of_allowed s r p hp hok] at hmem
      simp at hmem

theorem dispatch_connector (s : Server) (r r' : Request) (p t : String)
    (h : Event.runConnectorProtocol r' t ∈ dispatch s r p) :
    t = p ∧ r' = r ∧ p ≠ "" ∧ s.allowlistValidator.IsAllowed p = true := by
  by_cases hp : p = ""
  · subst hp
    rcases dispatch_empty_cases s r with hd | hd | ⟨handler, hd⟩ | hd <;>
      · rw [hd] at h
        simp at h
  · cases hok : s.allowlistValidator.IsAllowed p
    · rw [dispatch_of_rejected s r p hp hok] at h
      simp at h
    · rw [dispatch_of_allowed s r p hp hok] at h
      simp at h
      exact ⟨h.2, h.1, hp, rfl⟩

theorem index_eq_some_of_bounds (cs : List String) (i : Int) (hlo : 0 ≤ i)
    (hhi : i < (cs.length : Int)) : ∃ c, cs.get? i.toNat = some c ∧ index cs i = some c := by
  have hlt : i.toNat < cs.length := by omega
  refine ⟨cs.get ⟨i.toNat, hlt⟩, List.get?_eq_get hlt, ?_⟩
  unfold index
  rw [if_pos ⟨hlo, hhi⟩]
  exact List.get?_eq_get hlt

theorem selectPrefillHostPort_sampling (s : Server) (cs : List String) (c : String)
    (hs : s.config.EnablePrefillerSampling = true) (hne : cs ≠ [])
    (hc : index cs (s.prefillSamplerFn cs.length) = some c) :
    selectPrefillHostPort s cs = ([.prefillSamplerFn cs.length], some (TrimSpace c)) := by
  have hpos : (cs.length : Int) > 0 := by
    have := List.length_pos.mpr hne
    omega
  unfold selectPrefillHostPort
  simp only [hpos, hs, hc, ↓reduceIte, Option.map_some']

theorem selectPrefillHostPort_first (s : Server) (c : String) (rest : List String)
    (hs : s.config.EnablePrefillerSampling = false) :
    selectPrefillHostPort s (c :: rest) = ([], some (TrimSpace c)) := by
  have hpos : (((c :: rest).length : Nat) : Int) > 0 := by
    simp only [List.length_cons]
    omega
  unfold selectPrefillHostPort
  simp only [hpos, hs, ↓reduceIte]
  simp [index]

theorem chatCompletionsHandler_eq (s : Server) (r : Request) (tr : List Event) (p : String)
    (hsel : selectPrefillHostPort s (prefillHostPorts r) = (tr, some p)) :
    chatCompletionsHandler s r = tr ++ dispatch s r p := by
  have h := chatCompletionsHandler_of_selected s r p (by rw [hsel])
  rw [h, hsel]

/-! ## Lemmas on headers and on requests that differ in the prefill header -/

theorem Header.Values_Del_self (h : Header) (key : HeaderKey) :
    Header.Values (Header.Del h key) key = [] := by
  unfold Header.Values Header.Del
  induction h with
  | nil => rfl
  | cons kv rest ih =>
    obtain ⟨k, v⟩ := kv
    by_cases hk : k = key
    · simpa [List.filter_cons, hk] using ih
    · have hk' : (key == k) = false := by
        simpa using fun h' => hk h'.symm
      simpa [List.filter_cons, hk, List.lookup_cons, hk'] using ih

theorem Header.Values_Del_other (h : Header) (key key' : HeaderKey) (hne : key' ≠ key) :
    Header.Values (Header.Del h key) key' = Header.Values h key' := by
  unfold Header.Values Header.Del
  induction h with
  | nil => rfl
  | cons kv rest ih =>
    obtain ⟨k, v⟩ := kv
    by_cases hk : k = key
    · subst hk
      have hk' : (key' == k) = false := by
        simpa using hne
      simpa [List.filter_cons, List.lookup_cons, hk'] using ih
    · by_cases hk2 : key' = k
      · simp [List.filter_cons, hk, List.lookup_cons, hk2]
      · have hk' : (key' == k) = false := by
          simpa using hk2
        simpa [List.filter_cons, hk, List.lookup_cons, hk'] using ih

theorem prefillHostPorts_Del (r : Request) :
    prefillHostPorts { r with Header := Header.Del r.Header .PrefillPodHeader } = [] := by
  unfold prefillHostPorts
  simp [Header.Values_Del_self]

theorem selectPrefillHostPort_nil (s : Server) : selectPrefillHostPort s [] = ([], some "") := by
  unfold selectPrefillHostPort
  simp

theorem Event.isEffect_withRequest (r : Request) (e : Event) :
    (Event.withRequest r e).isEffect = e.isEffect := by
  cases e <;> rfl

theorem outcome_map_withRequest (r : Request) (trace : List Event) :
    outcome (trace.map (Event.withRequest r)) = (outcome trace).map (Event.withRequest r) := by
  unfold outcome
  rw [List.filter_map]
  congr 1
  apply List.filter_congr
  intro e _
  exact Event.isEffect_withRequest r e

theorem outcome_append_of_selected (s : Server) (cs : List String) (trace : List Event) :
    outcome ((selectPrefillHostPort s cs).1 ++ trace) = outcome trace := by
  have h := outcome_selectPrefillHostPort s cs
  unfold outcome at h ⊢
  rw [List.filter_append, h, List.nil_append]

theorem dataParallelHandler_withRequest (s : Server) (r1 r2 : Request)
    (hdp : r1.Header.Get .DataParallelPodHeader = r2.Header.Get .DataParallelPodHeader) :
    dataParallelHandler s r1 =
      ((dataParallelHandler s r2).1.map (Event.withRequest r1), (dataParallelHandler s r2).2) := by
  by_cases h : r2.Header.Get .DataParallelPodHeader = ""
  · rw [dataParallelHandler_absent s r2 h, dataParallelHandler_absent s r1 (hdp.trans h)]
    rfl
  · have h1 : r1.Header.Get .DataParallelPodHeader ≠ "" := fun h' => h (hdp.symm.trans h')
    cases hh : s.dataParallelProxy (r2.Header.Get .DataParallelPodHeader) with
    | none =>
      rw [dataParallelHandler_miss s r2 h hh,
        dataParallelHandler_miss s r1 h1 (by rw [hdp]; exact hh), hdp]
      rfl
    | some handler =>
      rw [dataParallelHandler_hit s r2 handler h hh,
        dataParallelHandler_hit s r1 handler h1 (by rw [hdp]; exact hh), hdp]
      rfl

theorem dispatch_withRequest (s : Server) (r1 r2 : Request) (p : String)
    (hdp : r1.Header.Get .DataParallelPodHeader = r2.Header.Get .DataParallelPodHeader) :
    dispatch s r1 p = (dispatch s r2 p).map (Event.withRequest r1) := by
  by_cases hp : p = ""
  · subst hp
    cases hf : s.forwardDataParallel
    · rw [dispatch_empty_off s r1 hf, dispatch_empty_off s r2 hf]
      rfl
    · rw [dispatch_empty_on s r1 hf, dispatch_empty_on s r2 hf,
        dataParallelHandler_withRequest s r1 r2 hdp]
      cases (dataParallelHandler s r2).2 <;> simp [Event.withRequest]
  · cases hok : s.allowlistValidator.IsAllowed p
    · rw [dispatch_of_rejected s r1 p hp hok, dispatch_of_rejected s r2 p hp hok]
      rfl
    · rw [dispatch_of_allowed s r1 p hp hok, dispatch_of_allowed s r2 p hp hok]
      rfl

theorem selectPrefillHostPort_map_withRequest (s : Server) (cs : List String) (r : Request) :
    (selectPrefillHostPort s cs).1.map (Event.withRequest r) = (selectPrefillHostPort s cs).1 := by
  conv_rhs => rw [← List.map_id (selectPrefillHostPort s cs).1]
  apply List.map_congr_left
  intro e he
  rw [selectPrefillHostPort_trace s cs e he]
  rfl

theorem chatCompletionsHandler_withRequest (s : Server) (r1 r2 : Request)
    (hcs : prefillHostPorts r1 = prefillHostPorts r2)
    (hdp : r1.Header.Get .DataParallelPodHeader = r2.Header.Get .DataParallelPodHeader) :
    chatCompletionsHandler s r1 = (chatCompletionsHandler s r2).map (Event.withRequest r1) := by
  unfold chatCompletionsHandler
  simp only [hcs]
  cases (selectPrefillHostPort s (prefillHostPorts r2)).2 with
  | none =>
    simp only [List.map_append, selectPrefillHostPort_map_withRequest]
    rfl
  | some p =>
    simp only [List.map_append, selectPrefillHostPort_map_withRequest]
    rw [dispatch_withRequest s r1 r2 p hdp]

/-- No path of the dispatch panics. -/
theorem dispatch_no_panic (s : Server) (r : Request) (p : String) :
    Event.panic ∉ dispatch s r p := by
  intro hmem
  by_cases hp : p = ""
  · subst hp
    rcases dispatch_empty_cases s r with h | h | ⟨handler, h⟩ | h <;>
      · rw [h] at hmem
        simp at hmem
  · cases hok : s.allowlistValidator.IsAllowed p
    · rw [dispatch_of_rejected s r p hp hok] at hmem
      simp at hmem
    · rw [dispatch_of_allowed s r p hp hok] at hmem
      simp at hmem

theorem selectPrefillHostPort_trace_nonempty (s : Server) (cs : List String) (e : Event)
    (he : e ∈ (selectPrefillHostPort s cs).1) : cs ≠ [] := by
  intro hnil
  subst hnil
  rw [selectPrefillHostPort_nil] at he
  simp at he

theorem chatCompletionsHandler_sampler_mem (s : Server) (r : Request) (n : Int)
    (h : Event.prefillSamplerFn n ∈ chatCompletionsHandler s r) :
    Event.prefillSamplerFn n ∈ (selectPrefillHostPort s (prefillHostPorts r)).1 := by
  unfold chatCompletionsHandler at h
  cases hsel : (selectPrefillHostPort s (prefillHostPorts r)).2 with
  | none =>
    simp only [hsel, List.mem_append, List.mem_singleton] at h
    rcases h with h | h
    · exact h
    · cases h
  | some p =>
    simp only [hsel, List.mem_append] at h
    rcases h with h | h
    · exact h
    · exact absurd h (dispatch_no_sampler s r p n)

theorem chatCompletionsHandler_no_panic_of_selected (s : Server) (r : Request)
    (h : (selectPrefillHostPort s (prefillHostPorts r)).2 ≠ none) :
    Event.panic ∉ chatCompletionsHandler s r := by
  cases hsel : (selectPrefillHostPort s (prefillHostPorts r)).2 with
  | none => exact absurd hsel h
  | some p =>
    rw [chatCompletionsHandler_of_selected s r p hsel, List.mem_append]
    rintro (hmem | hmem)
    · cases selectPrefillHostPort_trace s _ _ hmem
    · exact dispatch_no_panic s r p hmem

/-! ## Claims -/

/-- C1: whenever `chatCompletionsHandler` calls `runConnectorProtocol` with a
target `t`, for any sampler, sampling flag and allowlist predicate, the
validator was asked about that same `t` and accepts it, `t` is not empty, and
`t` neither starts nor ends with white space. -/
theorem chatCompletionsHandler_connector_target_allowed (s : Server) (r r' : Request)
    (t : String) (h : Event.runConnectorProtocol r' t ∈ chatCompletionsHandler s r) :
    s.allowlistValidator.IsAllowed t = true ∧
    Event.IsAllowed t ∈ chatCompletionsHandler s r ∧
    t ≠ "" ∧ hasLeadingSpace t = false ∧ hasTrailingSpace t = false := by
  cases hsel : (selectPrefillHostPort s (prefillHostPorts r)).2 with
  | none =>
    unfold chatCompletionsHandler at h
    simp only [hsel, List.mem_append, List.mem_singleton] at h
    rcases h with h | h
    · have := selectPrefillHostPort_trace s _ _ h
      cases this
    · cases h
  | some p =>
    rw [chatCompletionsHandler_of_selected s r p hsel] at h ⊢
    rw [List.mem_append] at h
    rcases h with h | h
    · have := selectPrefillHostPort_trace s _ _ h
      cases this
    · obtain ⟨rfl, -, hne, hok⟩ := dispatch_connector s r r' p t h
      refine ⟨hok, ?_, hne, ?_, ?_⟩
      · rw [dispatch_of_allowed s r t hne hok]
        simp
      · rcases selectPrefillHostPort_trimmed s _ t hsel with h0 | ⟨x, hx⟩
        · exact absurd h0 hne
        · rw [hx]
          exact TrimSpace_hasLeadingSpace x
      · rcases selectPrefillHostPort_trimmed s _ t hsel with h0 | ⟨x, hx⟩
        · exact absurd h0 hne
        · rw [hx]
          exact TrimSpace_hasTrailingSpace x

/-- Witness for C1: with sampling on, sampler `1 % n` and header `" a, b"` the
connector runs on `"b"`. -/
theorem chatCompletionsHandler_connector_target_allowed_witness :
    Event.runConnectorProtocol (prefillRequest [" a, b"]) "b" ∈
      chatCompletionsHandler (testServer true 1 allowAllButEvil true) (prefillRequest [" a, b"]) ∧
    (allowAllButEvil "b" = true ∧
     Event.IsAllowed "b" ∈
      chatCompletionsHandler (testServer true 1 allowAllButEvil true) (prefillRequest [" a, b"]) ∧
     "b" ≠ "" ∧ hasLeadingSpace "b" = false ∧ hasTrailingSpace "b" = false) :=
  ⟨by decide,
   chatCompletionsHandler_connector_target_allowed (testServer true 1 allowAllButEvil true)
     (prefillRequest [" a, b"]) (prefillRequest [" a, b"]) "b" (by decide)⟩

/-- C2: when the selected prefill target (after trimming) is not empty and the
allowlist validator rejects it, `chatCompletionsHandler` answers 403 through
`http.Error` and calls neither the connector, nor `dataParallelHandler`, nor
any forwarding handler (the local decode handler included). -/
theorem chatCompletionsHandler_rejected_forbidden (s : Server) (r : Request) (t : String)
    (hsel : (selectPrefillHostPort s (prefillHostPorts r)).2 = some t) (hne : t ≠ "")
    (hrej : s.allowlistValidator.IsAllowed t = false) :
    chatCompletionsHandler s r =
      (selectPrefillHostPort s (prefillHostPorts r)).1 ++
        [.IsAllowed t,
         .httpError "Forbidden: prefill target not allowed by SSRF protection" 403] ∧
    outcome (chatCompletionsHandler s r) =
      [.httpError "Forbidden: prefill target not allowed by SSRF protection" 403] ∧
    (∀ r' t', Event.runConnectorProtocol r' t' ∉ chatCompletionsHandler s r) ∧
    (∀ r', Event.dataParallelHandler r' ∉ chatCompletionsHandler s r) ∧
    (∀ h r', Event.ServeHTTP h r' ∉ chatCompletionsHandler s r) := by
  have htrace := chatCompletionsHandler_of_selected s r t hsel
  rw [dispatch_of_rejected s r t hne hrej] at htrace
  have hsample := selectPrefillHostPort_trace s (prefillHostPorts r)
  refine ⟨htrace, ?_, ?_, ?_, ?_⟩
  · rw [htrace]
    unfold outcome
    rw [List.filter_append]
    have := outcome_selectPrefillHostPort s (prefillHostPorts r)
    unfold outcome at this
    rw [this]
    simp [Event.isEffect]
  · intro r' t' hmem
    rw [htrace, List.mem_append] at hmem
    rcases hmem with hmem | hmem
    · cases hsample _ hmem
    · simp at hmem
  · intro r' hmem
    rw [htrace, List.mem_append] at hmem
    rcases hmem with hmem | hmem
    · cases hsample _ hmem
    · simp at hmem
  · intro h r' hmem
    rw [htrace, List.mem_append] at hmem
    rcases hmem with hmem | hmem
    · cases hsample _ hmem
    · simp at hmem

/-- Witness for C2: the header names the disallowed target `"evil:80"`. -/
theorem chatCompletionsHandler_rejected_forbidden_witness :
    chatCompletionsHandler (testServer false 0 allowAllButEvil true) (prefillRequest ["evil:80"]) =
      [.IsAllowed "evil:80",
       .httpError "Forbidden: prefill target not allowed by SSRF protection" 403] :=
  (chatCompletionsHandler_rejected_forbidden (testServer false 0 allowAllButEvil true)
    (prefillRequest ["evil:80"]) "evil:80" (by decide) (by decide) (by decide)).1

/-- C3: with prefiller sampling enabled, for a non-empty candidate list `cs`
of length `n` and a sampler with `0 ≤ f n < n`, the sampler is called once,
with `n`, and the selected target is `TrimSpace` of the candidate at index
`f n`; when that string is not empty and is allowed, the handler's calls are
the sampler call, the allowlist query and the connector on exactly that
string.  With `f n = i % n` for a natural number `i`, the selected target is
`TrimSpace` of the candidate at index `i % n`. -/
theorem sampling_selects_trimmed_candidate (s : Server) (r : Request) (cs : List String)
    (hs : s.config.EnablePrefillerSampling = true) (hr : prefillHostPorts r = cs)
    (hne : cs ≠ []) (hlo : 0 ≤ s.prefillSamplerFn cs.length)
    (hhi : s.prefillSamplerFn cs.length < cs.length) :
    ∃ c, cs.get? (s.prefillSamplerFn cs.length).toNat = some c ∧
      selectPrefillHostPort s cs = ([.prefillSamplerFn cs.length], some (TrimSpace c)) ∧
      (TrimSpace c ≠ "" → s.allowlistValidator.IsAllowed (TrimSpace c) = true →
        chatCompletionsHandler s r =
          [.prefillSamplerFn cs.length, .IsAllowed (TrimSpace c),
           .runConnectorProtocol r (TrimSpace c)]) ∧
      (∀ i : Nat, s.prefillSamplerFn cs.length = Int.tmod i cs.length →
        cs.get? (i % cs.length) = some c) := by
  obtain ⟨c, hget, hidx⟩ := index_eq_some_of_bounds cs _ hlo hhi
  have hsel := selectPrefillHostPort_sampling s cs c hs hne hidx
  refine ⟨c, hget, hsel, ?_, ?_⟩
  · intro hne' hok
    rw [chatCompletionsHandler_eq s r _ _ (by rw [hr]; exact hsel),
      dispatch_of_allowed s r _ hne' hok]
    rfl
  · intro i hi
    have hmod : Int.tmod (i : Int) (cs.length : Int) = ((i % cs.length : Nat) : Int) := by
      rw [Int.tmod_eq_emod (Int.natCast_nonneg i) (Int.natCast_nonneg cs.length)]
      exact (Int.natCast_mod i cs.length).symm
    rw [hi, hmod, Int.toNat_natCast] at hget
    exact hget

/-- Witness for C3: header `" a, b"`, sampler `1 % n`: the sampler is called
with 2 and the connector runs on `"b"`. -/
theorem sampling_selects_trimmed_candidate_witness :
    ∃ c, [" a", " b"].get? (Int.tmod 1 2).toNat = some c ∧
      selectPrefillHostPort (testServer true 1 allowAllButEvil true) [" a", " b"] =
        ([.prefillSamplerFn 2], some (TrimSpace c)) ∧
      (TrimSpace c ≠ "" → allowAllButEvil (TrimSpace c) = true →
        chatCompletionsHandler (testServer true 1 allowAllButEvil true) (prefillRequest [" a, b"]) =
          [.prefillSamplerFn 2, .IsAllowed (TrimSpace c),
           .runConnectorProtocol (prefillRequest [" a, b"]) (TrimSpace c)]) ∧
      (∀ i : Nat, Int.tmod 1 2 = Int.tmod i 2 → [" a", " b"].get? (i % 2) = some c) :=
  sampling_selects_trimmed_candidate (testServer true 1 allowAllButEvil true)
    (prefillRequest [" a, b"]) [" a", " b"] rfl (by decide) (by decide) (by decide) (by decide)

/-- C4: with prefiller sampling disabled and at least one candidate, the
selected target is `TrimSpace` of candidate 0 whatever the sampler function
is, and the sampler is never called; when that target is not empty and is
allowed, the handler's calls are the allowlist query and the connector on that
target, so neither `dataParallelHandler` nor the decode handler is invoked. -/
theorem no_sampling_selects_first (s : Server) (r : Request) (c : String)
    (rest : List String) (hs : s.config.EnablePrefillerSampling = false)
    (hr : prefillHostPorts r = c :: rest) :
    (∀ f, selectPrefillHostPort { s with prefillSamplerFn := f } (c :: rest) =
      ([], some (TrimSpace c))) ∧
    (∀ f, chatCompletionsHandler { s with prefillSamplerFn := f } r =
      chatCompletionsHandler s r) ∧
    (∀ n, Event.prefillSamplerFn n ∉ chatCompletionsHandler s r) ∧
    (TrimSpace c ≠ "" → s.allowlistValidator.IsAllowed (TrimSpace c) = true →
      chatCompletionsHandler s r =
        [.IsAllowed (TrimSpace c), .runConnectorProtocol r (TrimSpace c)]) := by
  have hsel : ∀ f, selectPrefillHostPort { s with prefillSamplerFn := f } (c :: rest) =
      ([], some (TrimSpace c)) := fun f => selectPrefillHostPort_first _ c rest hs
  have hself : selectPrefillHostPort s (c :: rest) = ([], some (TrimSpace c)) :=
    selectPrefillHostPort_first s c rest hs
  have htrace : chatCompletionsHandler s r = dispatch s r (TrimSpace c) := by
    rw [chatCompletionsHandler_eq s r [] _ (by rw [hr]; exact hself)]
    rfl
  refine ⟨hsel, ?_, ?_, ?_⟩
  · intro f
    rw [htrace, chatCompletionsHandler_eq _ r [] (TrimSpace c) (by rw [hr]; exact hsel f)]
    rfl
  · intro n hmem
    rw [htrace] at hmem
    exact dispatch_no_sampler s r _ n hmem
  · intro hne hok
    rw [htrace, dispatch_of_allowed s r _ hne hok]

/-- Witness for C4: header `"a,b"` with sampling off dispatches to `"a"`, also
when the sampler would have picked index 1. -/
theorem no_sampling_selects_first_witness :
    chatCompletionsHandler (testServer false 1 allowAllButEvil true) (prefillRequest ["a,b"]) =
      [.IsAllowed "a", .runConnectorProtocol (prefillRequest ["a,b"]) "a"] :=
  (no_sampling_selects_first (testServer false 1 allowAllButEvil true) (prefillRequest ["a,b"])
    "a" ["b"] rfl (by decide)).2.2.2 (by decide) (by decide)

/-- C5: header-combining equivalence.  For a non-empty list `vs` of strings
without a comma, a request whose prefill header is the single value
`vs` joined with `","` and a request whose prefill header holds `vs` as
separate values (the data-parallel header being the same in both) have the
same candidate list `vs`, hence the same sampler call and selected target and,
for every sampler and allowlist, the same calls of the handler, each callee
receiving the request that was actually served. -/
theorem header_combining_equivalence (s : Server) (r1 r2 : Request) (vs : List String)
    (hvs : vs ≠ []) (hcomma : ∀ v ∈ vs, ',' ∉ v.data)
    (h1 : r1.Header.Values .PrefillPodHeader = [JoinComma vs])
    (h2 : r2.Header.Values .PrefillPodHeader = vs)
    (hdp : r1.Header.Get .DataParallelPodHeader = r2.Header.Get .DataParallelPodHeader) :
    prefillHostPorts r1 = vs ∧ prefillHostPorts r2 = vs ∧
    selectPrefillHostPort s (prefillHostPorts r1) =
      selectPrefillHostPort s (prefillHostPorts r2) ∧
    chatCompletionsHandler s r1 = (chatCompletionsHandler s r2).map (Event.withRequest r1) := by
  have hc1 : prefillHostPorts r1 = vs := by
    unfold prefillHostPorts
    simp only [h1, List.length_singleton, ↓reduceIte, List.headD_cons]
    exact SplitComma_JoinComma vs hvs hcomma
  have hc2 : prefillHostPorts r2 = vs := by
    unfold prefillHostPorts
    simp only [h2]
    split_ifs with hlen
    · obtain ⟨v, rfl⟩ := List.length_eq_one.mp hlen
      exact SplitComma_of_no_comma v (hcomma v (by simp))
    · rfl
  refine ⟨hc1, hc2, by rw [hc1, hc2], ?_⟩
  exact chatCompletionsHandler_withRequest s r1 r2 (hc1.trans hc2.symm) hdp

/-- Witness for C5: the header value `"a,b"` against the two header lines
`"a"` and `"b"`, sampling on with sampler `1 % n`. -/
theorem header_combining_equivalence_witness :
    prefillHostPorts (prefillRequest ["a,b"]) = ["a", "b"] ∧
    prefillHostPorts (prefillRequest ["a", "b"]) = ["a", "b"] ∧
    selectPrefillHostPort (testServer true 1 allowAllButEvil true)
        (prefillHostPorts (prefillRequest ["a,b"])) =
      selectPrefillHostPort (testServer true 1 allowAllButEvil true)
        (prefillHostPorts (prefillRequest ["a", "b"])) ∧
    chatCompletionsHandler (testServer true 1 allowAllButEvil true) (prefillRequest ["a,b"]) =
      (chatCompletionsHandler (testServer true 1 allowAllButEvil true)
        (prefillRequest ["a", "b"])).map (Event.withRequest (prefillRequest ["a,b"])) :=
  header_combining_equivalence (testServer true 1 allowAllButEvil true)
    (prefillRequest ["a,b"]) (prefillRequest ["a", "b"]) ["a", "b"]
    (by decide) (by decide) (by decide) (by decide) (by decide)

/-- C6: when the selected candidate trims to the empty string the handler takes
the fallback path: the allowlist validator is not asked, no `http.Error` (so
no 403) is written, the connector is not called, and apart from the sampler
call the handler's calls are those made for the same request without the
prefill header, each callee receiving the request that was actually served;
in particular the outcome is the same. -/
theorem empty_target_fallback (s : Server) (r : Request)
    (hsel : (selectPrefillHostPort s (prefillHostPorts r)).2 = some "") :
    (∀ t, Event.IsAllowed t ∉ chatCompletionsHandler s r) ∧
    (∀ body code, Event.httpError body code ∉ chatCompletionsHandler s r) ∧
    (∀ r' t, Event.runConnectorProtocol r' t ∉ chatCompletionsHandler s r) ∧
    chatCompletionsHandler s r =
      (selectPrefillHostPort s (prefillHostPorts r)).1 ++
        (chatCompletionsHandler s
          { r with Header := Header.Del r.Header .PrefillPodHeader }).map
          (Event.withRequest r) ∧
    outcome (chatCompletionsHandler s r) =
      (outcome (chatCompletionsHandler s
        { r with Header := Header.Del r.Header .PrefillPodHeader })).map
        (Event.withRequest r) := by
  have htrace := chatCompletionsHandler_of_selected s r "" hsel
  have hsample := selectPrefillHostPort_trace s (prefillHostPorts r)
  have hdel : chatCompletionsHandler s
      { r with Header := Header.Del r.Header .PrefillPodHeader } =
      dispatch s { r with Header := Header.Del r.Header .PrefillPodHeader } "" := by
    rw [chatCompletionsHandler_eq s _ [] "" (by
      rw [prefillHostPorts_Del]
      exact selectPrefillHostPort_nil s)]
    rfl
  have hdp : r.Header.Get .DataParallelPodHeader =
      Header.Get (Header.Del r.Header .PrefillPodHeader) .DataParallelPodHeader := by
    unfold Header.Get
    rw [Header.Values_Del_other r.Header .PrefillPodHeader .DataParallelPodHeader (by decide)]
  have hmap := dispatch_withRequest s r
    { r with Header := Header.Del r.Header .PrefillPodHeader } "" hdp
  have hfull : chatCompletionsHandler s r =
      (selectPrefillHostPort s (prefillHostPorts r)).1 ++
        (chatCompletionsHandler s
          { r with Header := Header.Del r.Header .PrefillPodHeader }).map
          (Event.withRequest r) := by
    rw [htrace, hdel, hmap]
  refine ⟨?_, ?_, ?_, hfull, ?_⟩
  · intro t hmem
    rw [htrace, List.mem_append] at hmem
    rcases hmem with hmem | hmem
    · cases hsample _ hmem
    · rcases dispatch_empty_cases s r with h | h | ⟨handler, h⟩ | h <;>
        · rw [h] at hmem
          simp at hmem
  · intro body code hmem
    rw [htrace, List.mem_append] at hmem
    rcases hmem with hmem | hmem
    · cases hsample _ hmem
    · rcases dispatch_empty_cases s r with h | h | ⟨handler, h⟩ | h <;>
        · rw [h] at hmem
          simp at hmem
  · intro r' t hmem
    rw [htrace, List.mem_append] at hmem
    rcases hmem with hmem | hmem
    · cases hsample _ hmem
    · rcases dispatch_empty_cases s r with h | h | ⟨handler, h⟩ | h <;>
        · rw [h] at hmem
          simp at hmem
  · rw [hfull, outcome_append_of_selected, outcome_map_withRequest]

/-- Witness for C6: header `" ,b"` with sampling off selects `" "`, which trims
to the empty string, and the request goes to the decode handler. -/
theorem empty_target_fallback_witness :
    outcome (chatCompletionsHandler (testServer false 0 allowAllButEvil true)
      (prefillRequest [" ,b"])) =
    (outcome (chatCompletionsHandler (testServer false 0 allowAllButEvil true)
      { prefillRequest [" ,b"] with
        Header := Header.Del (prefillRequest [" ,b"]).Header .PrefillPodHeader })).map
      (Event.withRequest (prefillRequest [" ,b"])) :=
  (empty_target_fallback (testServer false 0 allowAllButEvil true) (prefillRequest [" ,b"])
    (by decide)).2.2.2.2

/-- C7: with data-parallel forwarding enabled, for a request with no usable
prefill target and an absent or empty data-parallel header, the handler calls
`dataParallelHandler`, which declines, and then the local decode handler once
with the original request; it invokes nothing else and writes nothing to the
response itself. -/
theorem fallback_passthrough (s : Server) (r : Request)
    (hf : s.forwardDataParallel = true)
    (hsel : (selectPrefillHostPort s (prefillHostPorts r)).2 = some "")
    (hdp : r.Header.Get .DataParallelPodHeader = "") :
    chatCompletionsHandler s r =
      (selectPrefillHostPort s (prefillHostPorts r)).1 ++
        [.dataParallelHandler r, .ServeHTTP s.decoderProxy r] ∧
    outcome (chatCompletionsHandler s r) = [.ServeHTTP s.decoderProxy r] ∧
    (chatCompletionsHandler s r).count (.ServeHTTP s.decoderProxy r) = 1 := by
  have htrace := chatCompletionsHandler_of_selected s r "" hsel
  rw [dispatch_empty_absent s r hf hdp] at htrace
  have hout : outcome (chatCompletionsHandler s r) = [.ServeHTTP s.decoderProxy r] := by
    rw [htrace, outcome_append_of_selected]
    rfl
  refine ⟨htrace, hout, ?_⟩
  have hcount : (outcome (chatCompletionsHandler s r)).count (.ServeHTTP s.decoderProxy r) =
      (chatCompletionsHandler s r).count (.ServeHTTP s.decoderProxy r) := by
    unfold outcome
    rw [List.count_filter]
    rfl
  rw [← hcount, hout]
  simp

/-- Witness for C7: the request with no header at all, as in the test
`passthrough by default`. -/
theorem fallback_passthrough_witness :
    chatCompletionsHandler (testServer false 0 allowAllButEvil true) { Header := [] } =
      [.dataParallelHandler { Header := [] }, .ServeHTTP (.func 0) { Header := [] }] :=
  (fallback_passthrough (testServer false 0 allowAllButEvil true) { Header := [] }
    rfl (by decide) (by decide)).1

/-- C8: on a server with `forwardDataParallel = false`, as every per-rank
clone of `startDataParallel` is, a request with no usable prefill target is
not forwarded: the handler makes no call at all, with or without a
data-parallel header, so the local decode handler is never invoked. -/
theorem chatCompletionsHandler_forward_off_drops :
    chatCompletionsHandler (testServer false 0 allowAllButEvil false) { Header := [] } = [] ∧
    chatCompletionsHandler (testServer false 0 allowAllButEvil false)
      (dataParallelRequest ["10.0.0.1:8001"]) = [] ∧
    Event.ServeHTTP (testServer false 0 allowAllButEvil false).decoderProxy { Header := [] } ∉
      chatCompletionsHandler (testServer false 0 allowAllButEvil false) { Header := [] } := by
  decide

/-- C9: when the data-parallel header is not empty and the table has no handler
for it, `dataParallelHandler` reads the table, writes status 400, returns true
and invokes no handler; on the fallback path `chatCompletionsHandler` then
invokes no forwarding handler, the local decode handler included, and with
data-parallel forwarding enabled its only effect is the 400. -/
theorem dataParallelHandler_unknown_rank (s : Server) (r : Request)
    (hdp : r.Header.Get .DataParallelPodHeader ≠ "")
    (hmiss : s.dataParallelProxy (r.Header.Get .DataParallelPodHeader) = none) :
    dataParallelHandler s r =
      ([.dataParallelLookup (r.Header.Get .DataParallelPodHeader), .WriteHeader 400], true) ∧
    ((selectPrefillHostPort s (prefillHostPorts r)).2 = some "" →
      (∀ handler r', Event.ServeHTTP handler r' ∉ chatCompletionsHandler s r) ∧
      (s.forwardDataParallel = true →
        outcome (chatCompletionsHandler s r) = [.WriteHeader 400])) := by
  refine ⟨dataParallelHandler_miss s r hdp hmiss, ?_⟩
  intro hsel
  have htrace := chatCompletionsHandler_of_selected s r "" hsel
  have hsample := selectPrefillHostPort_trace s (prefillHostPorts r)
  constructor
  · intro handler r' hmem
    rw [htrace, List.mem_append] at hmem
    rcases hmem with hmem | hmem
    · cases hsample _ hmem
    · cases hf : s.forwardDataParallel
      · rw [dispatch_empty_off s r hf] at hmem
        simp at hmem
      · rw [dispatch_empty_miss s r hf hdp hmiss] at hmem
        simp at hmem
  · intro hf
    rw [htrace, dispatch_empty_miss s r hf hdp hmiss, outcome_append_of_selected]
    rfl

/-- Witness for C9: the data-parallel header names `"10.0.0.1:8001"` and the
table is empty. -/
theorem dataParallelHandler_unknown_rank_witness :
    dataParallelHandler (testServer false 0 allowAllButEvil true)
        (dataParallelRequest ["10.0.0.1:8001"]) =
      ([.dataParallelLookup "10.0.0.1:8001", .WriteHeader 400], true) ∧
    outcome (chatCompletionsHandler (testServer false 0 allowAllButEvil true)
      (dataParallelRequest ["10.0.0.1:8001"])) = [.WriteHeader 400] :=
  have h := dataParallelHandler_unknown_rank (testServer false 0 allowAllButEvil true)
    (dataParallelRequest ["10.0.0.1:8001"]) (by decide) (by decide)
  ⟨h.1, (h.2 (by decide)).2 rfl⟩

/-- C10: `dataParallelHandler` returns true exactly when the value of the
data-parallel header is not empty; when the header is absent or empty it
returns false, invokes no handler and writes nothing. -/
theorem dataParallelHandler_handled_iff (s : Server) (r : Request) :
    ((dataParallelHandler s r).2 = true ↔ r.Header.Get .DataParallelPodHeader ≠ "") ∧
    (r.Header.Get .DataParallelPodHeader = "" → dataParallelHandler s r = ([], false)) := by
  refine ⟨?_, dataParallelHandler_absent s r⟩
  by_cases h : r.Header.Get .DataParallelPodHeader = ""
  · rw [dataParallelHandler_absent s r h]
    simp [h]
  · cases hh : s.dataParallelProxy (r.Header.Get .DataParallelPodHeader) with
    | none =>
      rw [dataParallelHandler_miss s r h hh]
      simp [h]
    | some handler =>
      rw [dataParallelHandler_hit s r handler h hh]
      simp [h]

/-- C11: for a replica count `N ≥ 1`, a numeric listening port `P` and a numeric
decoder port `D`, a successful `startDataParallel` on an empty table leaves
exactly `N` entries with distinct keys: `JoinHostPort(podIP, port)` maps to the
primary decode handler, for each `i` in `[1, N-1]` the key
`JoinHostPort(podIP, P+i)` maps to the handler built for the URL parsed from
`scheme://localhost:(D+i)`, and there is no other key.  The sums `P+i` and
`D+i` are those of Go `int`. -/
theorem startDataParallel_table (podIP : String) (urlParse : String → Option URL)
    (s : Server) (P D : Int)
    (hN : 1 ≤ s.config.DataParallelSize) (hsize : fitsInt64 s.config.DataParallelSize)
    (hP : Atoi s.port = some P) (hD : Atoi s.decoderURL.Port = some D)
    (hempty : s.dataParallelProxies = [])
    (hok : (startDataParallel podIP urlParse s).err = none) :
    (startDataParallel podIP urlParse s).server.dataParallelProxies.length =
      s.config.DataParallelSize.toNat ∧
    ((startDataParallel podIP urlParse s).server.dataParallelProxies.map Prod.fst).Nodup ∧
    (startDataParallel podIP urlParse s).server.dataParallelProxy
      (JoinHostPort podIP s.port) = some s.decoderProxy ∧
    (∀ i : Int, 1 ≤ i → i < s.config.DataParallelSize →
      ∃ u, urlParse (s.decoderURL.Scheme ++ "://localhost:" ++ Itoa (int64 (D + i))) =
          some u ∧
        (startDataParallel podIP urlParse s).server.dataParallelProxy
          (JoinHostPort podIP (Itoa (int64 (P + i)))) =
          some (createDecoderProxyHandler u s.config.DecoderInsecureSkipVerify)) ∧
    (∀ k ∈ (startDataParallel podIP urlParse s).server.dataParallelProxies.map Prod.fst,
      k = JoinHostPort podIP s.port ∨
      ∃ i : Int, 1 ≤ i ∧ i < s.config.DataParallelSize ∧
        k = JoinHostPort podIP (Itoa (int64 (P + i)))) := by
  obtain ⟨hkeys, hzero, hranks, -, -, -⟩ :=
    startDataParallel_spec podIP urlParse s P D hP hD hempty hok
  have hpred := int64_size_pred _ hN hsize
  have hidx : ∀ i : Int, 1 ≤ i → i < s.config.DataParallelSize →
      i - 1 ∈ rangeInt (int64 (s.config.DataParallelSize - 1)) := by
    intro i h1 h2
    rw [hpred, mem_rangeInt]
    omega
  refine ⟨?_, ?_, ?_, ?_, ?_⟩
  · have hlen := congrArg List.length hkeys
    simp only [List.length_map, List.length_cons, rangeInt_length, hpred] at hlen
    rw [hlen]
    omega
  · rw [hkeys, List.nodup_cons]
    refine ⟨?_, rankHostPort_nodup podIP P _⟩
    intro hmem
    obtain ⟨idx, hmem', heq⟩ := List.mem_map.mp hmem
    exact rankHostPort_ne_port podIP s.port P _ idx hP hmem' heq
  · unfold Server.dataParallelProxy
    rw [hzero]
    rfl
  · intro i h1 h2
    obtain ⟨u, hparse, hlook⟩ := hranks (i - 1) (hidx i h1 h2)
    have hPi : P + (i - 1) + 1 = P + i := by omega
    have hDi : D + (i - 1) + 1 = D + i := by omega
    refine ⟨u, ?_, ?_⟩
    · unfold rankDecoderURL at hparse
      rw [hDi] at hparse
      exact hparse
    · unfold rankHostPort at hlook
      rw [hPi] at hlook
      unfold Server.dataParallelProxy
      rw [hlook]
      rfl
  · intro k hk
    rw [hkeys, List.mem_cons] at hk
    rcases hk with hk | hk
    · exact Or.inl hk
    · obtain ⟨idx, hmem, heq⟩ := List.mem_map.mp hk
      have hm := hmem
      rw [hpred, mem_rangeInt] at hm
      refine Or.inr ⟨idx + 1, by omega, by omega, ?_⟩
      rw [← heq]
      unfold rankHostPort
      congr 3
      omega

/-- Witness for C11: three ranks on port 8000 in front of decoder port 8200
give three entries with distinct keys, and `10.0.0.1:8002` maps to the handler
for `localhost:8202`. -/
theorem startDataParallel_table_witness :
    (startDataParallel "10.0.0.1" parseHTTP (rankServer 3)).server.dataParallelProxies.length =
      (3 : Int).toNat ∧
    ((startDataParallel "10.0.0.1" parseHTTP (rankServer 3)).server.dataParallelProxies.map
      Prod.fst).Nodup ∧
    (startDataParallel "10.0.0.1" parseHTTP (rankServer 3)).server.dataParallelProxy
      "10.0.0.1:8002" =
      some (.reverseProxy { Scheme := "http", Host := "localhost:8202" } false) :=
  have h := startDataParallel_table "10.0.0.1" parseHTTP (rankServer 3) 8000 8200
    (by decide) (by decide) (by decide) (by decide) rfl (by decide)
  ⟨h.1, h.2.1, by decide⟩

/-- C12: under the same conditions `startDataParallel` hands `N - 1` closures to
the group, one per rank `i` in `[1, N-1]`; the clone of rank `i` has port
`P + i`, the decoder URL parsed from `scheme://localhost:(D+i)` and
`forwardDataParallel = false`, and the table entry of its own address
`JoinHostPort(podIP, P+i)` is the handler built for that same decoder URL.
The sums `P+i` and `D+i` are those of Go `int`. -/
theorem startDataParallel_subServers (podIP : String) (urlParse : String → Option URL)
    (s : Server) (P D : Int)
    (hN : 1 ≤ s.config.DataParallelSize) (hsize : fitsInt64 s.config.DataParallelSize)
    (hP : Atoi s.port = some P) (hD : Atoi s.decoderURL.Port = some D)
    (hempty : s.dataParallelProxies = [])
    (hok : (startDataParallel podIP urlParse s).err = none) :
    (startDataParallel podIP urlParse s).subServers.length =
      (s.config.DataParallelSize - 1).toNat ∧
    (∀ i : Int, 1 ≤ i → i < s.config.DataParallelSize →
      ∃ clone u, (startDataParallel podIP urlParse s).subServers.get? (i - 1).toNat =
          some (.ok clone) ∧
        clone.port = Itoa (int64 (P + i)) ∧
        urlParse (s.decoderURL.Scheme ++ "://localhost:" ++ Itoa (int64 (D + i))) = some u ∧
        clone.decoderURL = u ∧
        clone.forwardDataParallel = false ∧
        (startDataParallel podIP urlParse s).server.dataParallelProxy
          (JoinHostPort podIP clone.port) =
          some (createDecoderProxyHandler clone.decoderURL
            s.config.DecoderInsecureSkipVerify)) := by
  obtain ⟨-, -, hranks, hsub, hurl, -⟩ :=
    startDataParallel_spec podIP urlParse s P D hP hD hempty hok
  have hpred := int64_size_pred _ hN hsize
  constructor
  · rw [hsub, List.length_map, rangeInt_length, hpred]
  · intro i h1 h2
    have hmem : i - 1 ∈ rangeInt (int64 (s.config.DataParallelSize - 1)) := by
      rw [hpred, mem_rangeInt]
      omega
    obtain ⟨u, hparse, hlook⟩ := hranks (i - 1) hmem
    have hparse' : urlParse (rankDecoderURL (startDataParallel podIP urlParse s).server D
        (i - 1)) = some u := by
      unfold rankDecoderURL at hparse ⊢
      rw [hurl]
      exact hparse
    obtain ⟨clone, hclone, hport, hdec, hfwd, -, -⟩ :=
      subServer_ok urlParse (startDataParallel podIP urlParse s).server P D (i - 1) u hparse'
    have hPi : P + (i - 1) + 1 = P + i := by omega
    have hDi : D + (i - 1) + 1 = D + i := by omega
    rw [hPi] at hport
    refine ⟨clone, u, ?_, hport, ?_, hdec, hfwd, ?_⟩
    · have hk : (i - 1).toNat < (int64 (s.config.DataParallelSize - 1)).toNat := by
        rw [hpred]
        omega
      rw [hsub, List.get?_eq_getElem?, List.getElem?_map, ← List.get?_eq_getElem?,
        rangeInt_get? _ _ hk]
      have hcast : (((i - 1).toNat : Nat) : Int) = i - 1 := by omega
      simp only [Option.map_some', hcast]
      rw [hclone]
    · unfold rankDecoderURL at hparse
      rw [hDi] at hparse
      exact hparse
    · unfold rankHostPort at hlook
      rw [hPi] at hlook
      unfold Server.dataParallelProxy
      rw [hport, hdec, hlook]
      rfl

/-- Witness for C12: three ranks give two sub-servers. -/
theorem startDataParallel_subServers_witness :
    (startDataParallel "10.0.0.1" parseHTTP (rankServer 3)).subServers.length =
      ((3 : Int) - 1).toNat :=
  (startDataParallel_subServers "10.0.0.1" parseHTTP (rankServer 3) 8000 8200
    (by decide) (by decide) (by decide) (by decide) rfl (by decide)).1

/-- C13: when the body of the request cannot be read or does not decode into a
JSON object, `runSGLangProtocol` makes one call, `errorJSONInvalid`, on the
client's writer and stops: no room identifier is generated, the prefill handler
factory is not called, and neither the prefill nor the decode handler is
invoked. -/
theorem runSGLangProtocol_invalid_body (c : Connector) (s : Server) (w : Response)
    (r : Request) (prefillPodHostPort : String)
    (h : r.Body = none ∨ ∃ body, r.Body = some body ∧ c.jsonUnmarshal body = none) :
    ∃ err, runSGLangProtocol c s w r prefillPodHostPort =
        { trace := [.errorJSONInvalid err], w := c.errorJSONInvalid err w, pw := none } ∧
      (∀ roomID, SGLangEvent.generateSGLangRoomID roomID ∉
        (runSGLangProtocol c s w r prefillPodHostPort).trace) ∧
      (∀ host, SGLangEvent.prefillerProxyHandler host ∉
        (runSGLangProtocol c s w r prefillPodHostPort).trace) ∧
      (∀ handler q, SGLangEvent.goServeHTTP handler q ∉
        (runSGLangProtocol c s w r prefillPodHostPort).trace) ∧
      (∀ handler q, SGLangEvent.ServeHTTP handler q ∉
        (runSGLangProtocol c s w r prefillPodHostPort).trace) := by
  have hparse : ∃ err, parseSGLangRequest c r = .error err := by
    unfold parseSGLangRequest
    rcases h with h | ⟨body, hb, hu⟩
    · exact ⟨.readBody, by simp only [h]⟩
    · exact ⟨.jsonUnmarshal, by simp only [hb, hu]⟩
  obtain ⟨err, herr⟩ := hparse
  have hrun : runSGLangProtocol c s w r prefillPodHostPort =
      { trace := [.errorJSONInvalid err], w := c.errorJSONInvalid err w, pw := none } := by
    unfold runSGLangProtocol
    simp only [herr]
  refine ⟨err, hrun, ?_, ?_, ?_, ?_⟩ <;>
    · intros
      rw [hrun]
      simp

/-- Witness for C13: the one-byte body `[1]` is not a JSON object. -/
theorem runSGLangProtocol_invalid_body_witness :
    ∃ err, runSGLangProtocol testConnector (testServer false 0 allowAllButEvil true) {}
        (bodyRequest [1]) "10.0.0.5:8000" =
      { trace := [.errorJSONInvalid err], w := testConnector.errorJSONInvalid err {},
        pw := none } :=
  have h := runSGLangProtocol_invalid_body testConnector
    (testServer false 0 allowAllButEvil true) {} (bodyRequest [1]) "10.0.0.5:8000"
    (Or.inr ⟨[1], rfl, by decide⟩)
  h.elim fun err herr => ⟨err, herr.1⟩

/-- C14: for a body map `m` (keys distinct, as in any Go map), a prefill target
`t` and a room identifier, `addSGLangBootstrapInfo` returns a map in which the
bootstrap host field holds `getBootstrapHost(t)`, the bootstrap port field the
configured bootstrap port and the bootstrap room field the room identifier,
whatever `m` held under those names; every other key reads as in `m`; and the
keys are those of `m` together with the three field names, which are taken to
be three different names. -/
theorem addSGLangBootstrapInfo_fields (c : Connector) (m : JSONObject)
    (prefillHostPort : String) (roomID : Int)
    (hmap : (m.map Prod.fst).Nodup)
    (hhp : c.requestFieldBootstrapHost ≠ c.requestFieldBootstrapPort)
    (hhr : c.requestFieldBootstrapHost ≠ c.requestFieldBootstrapRoom)
    (hpr : c.requestFieldBootstrapPort ≠ c.requestFieldBootstrapRoom) :
    ∃ bootstrapHost modifiedRequest,
      getBootstrapHost prefillHostPort = some bootstrapHost ∧
      addSGLangBootstrapInfo c m prefillHostPort roomID = some modifiedRequest ∧
      modifiedRequest.lookup c.requestFieldBootstrapHost = some (.str bootstrapHost) ∧
      modifiedRequest.lookup c.requestFieldBootstrapPort = some (.int c.sglangBootstrapPort) ∧
      modifiedRequest.lookup c.requestFieldBootstrapRoom = some (.int roomID) ∧
      (∀ key, key ≠ c.requestFieldBootstrapHost → key ≠ c.requestFieldBootstrapPort →
        key ≠ c.requestFieldBootstrapRoom → modifiedRequest.lookup key = m.lookup key) ∧
      (∀ key, key ∈ modifiedRequest.map Prod.fst ↔
        key ∈ m.map Prod.fst ∨ key = c.requestFieldBootstrapHost ∨
          key = c.requestFieldBootstrapPort ∨ key = c.requestFieldBootstrapRoom) := by
  obtain ⟨hhost, -⟩ := getBootstrapHost_eq prefillHostPort
  have hadd : addSGLangBootstrapInfo c m prefillHostPort roomID =
      some (setField (setField (setField
        (m.foldl (fun acc kv => setField acc kv.1 kv.2) [])
        c.requestFieldBootstrapHost (.str ((SplitColon prefillHostPort).headD "")))
        c.requestFieldBootstrapPort (.int c.sglangBootstrapPort))
        c.requestFieldBootstrapRoom (.int roomID)) := by
    unfold addSGLangBootstrapInfo
    simp only [hhost]
  have hlook : ∀ key, (setField (setField (setField
        (m.foldl (fun acc kv => setField acc kv.1 kv.2) [])
        c.requestFieldBootstrapHost (.str ((SplitColon prefillHostPort).headD "")))
        c.requestFieldBootstrapPort (.int c.sglangBootstrapPort))
        c.requestFieldBootstrapRoom (.int roomID)).lookup key =
      if key = c.requestFieldBootstrapRoom then some (.int roomID)
      else if key = c.requestFieldBootstrapPort then some (.int c.sglangBootstrapPort)
      else if key = c.requestFieldBootstrapHost then
        some (.str ((SplitColon prefillHostPort).headD ""))
      else m.lookup key := by
    intro key
    rw [lookup_setField, lookup_setField, lookup_setField, lookup_foldl_setField m [] hmap]
    simp [List.lookup]
  refine ⟨_, _, hhost, hadd, ?_, ?_, ?_, ?_, ?_⟩
  · rw [hlook, if_neg hhr, if_neg hhp, if_pos rfl]
  · rw [hlook, if_neg hpr, if_pos rfl]
  · rw [hlook, if_pos rfl]
  · intro key h1 h2 h3
    rw [hlook, if_neg h3, if_neg h2, if_neg h1]
  · intro key
    rw [mem_keys_iff_lookup, mem_keys_iff_lookup, hlook]
    by_cases h3 : key = c.requestFieldBootstrapRoom
    · simp [h3]
    · by_cases h2 : key = c.requestFieldBootstrapPort
      · rw [if_neg h3, if_pos h2]
        simp [h2]
      · by_cases h1 : key = c.requestFieldBootstrapHost
        · rw [if_neg h3, if_neg h2, if_pos h1]
          simp [h1]
        · simp [h1, h2, h3]

/-- Witness for C14: a body that already holds a `bootstrap_room` field. -/
theorem addSGLangBootstrapInfo_fields_witness :
    ∃ bootstrapHost modifiedRequest,
      getBootstrapHost "10.0.0.5:8000" = some bootstrapHost ∧
      addSGLangBootstrapInfo testConnector
        [("model", .decoded "m"), ("bootstrap_room", .decoded "1")] "10.0.0.5:8000" 42 =
        some modifiedRequest ∧
      modifiedRequest.lookup "bootstrap_host" = some (.str bootstrapHost) ∧
      modifiedRequest.lookup "bootstrap_port" = some (.int 8998) ∧
      modifiedRequest.lookup "bootstrap_room" = some (.int 42) :=
  have h := addSGLangBootstrapInfo_fields testConnector
    [("model", .decoded "m"), ("bootstrap_room", .decoded "1")] "10.0.0.5:8000" 42
    (by decide) (by decide) (by decide) (by decide)
  h.elim fun host h' => h'.elim fun m' hm =>
    ⟨host, m', hm.1, hm.2.1, hm.2.2.1, hm.2.2.2.1, hm.2.2.2.2.1⟩

/-- C15: both requests built by `sendSGLangConcurrentRequests` are the original
request with the body `b` and `ContentLength = len(b)`; when the factory
succeeds the prefill handler is started on the first and the decode handler is
called on the second, so both legs carry the same bytes `b`, and every request
handed to a handler is that request; `sendSGLangConcurrentRequests` marshals
nothing itself.  A run of `runSGLangProtocol` on a body that decodes calls
`json.Marshal` exactly once, right after the room identifier is generated and
before the factory and both handlers; when marshalling and the factory
succeed, the marshalled bytes are the body of both requests. -/
theorem sendSGLangConcurrentRequests_bodies (c : Connector) (s : Server) (w : Response)
    (r : Request) (body : Bytes) (prefillHost : String) :
    (cloneWithJSONBody r body).Body = some body ∧
    (cloneWithJSONBody r body).ContentLength = (body.length : Int) ∧
    (∀ prefillHandler, c.prefillerProxyHandler prefillHost = some prefillHandler →
      (sendSGLangConcurrentRequests c s w r body prefillHost).trace =
        [.prefillerProxyHandler prefillHost,
         .goServeHTTP prefillHandler (cloneWithJSONBody r body),
         .ServeHTTP s.decoderProxy (cloneWithJSONBody r body)]) ∧
    (∀ handler q, SGLangEvent.goServeHTTP handler q ∈
        (sendSGLangConcurrentRequests c s w r body prefillHost).trace →
      q = cloneWithJSONBody r body) ∧
    (∀ handler q, SGLangEvent.ServeHTTP handler q ∈
        (sendSGLangConcurrentRequests c s w r body prefillHost).trace →
      q = cloneWithJSONBody r body) ∧
    (∀ info, SGLangEvent.jsonMarshal info ∉
        (sendSGLangConcurrentRequests c s w r body prefillHost).trace) ∧
    (∀ raw requestData, r.Body = some raw → c.jsonUnmarshal raw = some requestData →
      ∃ info, addSGLangBootstrapInfo c requestData prefillHost
          (generateSGLangRoomID c.nowUnixNano c.randIntn) = some info ∧
        (runSGLangProtocol c s w r prefillHost).trace.countP SGLangEvent.isJSONMarshal = 1 ∧
        (runSGLangProtocol c s w r prefillHost).trace.take 2 =
          [.generateSGLangRoomID (generateSGLangRoomID c.nowUnixNano c.randIntn),
           .jsonMarshal info] ∧
        (∀ marshalled prefillHandler, c.jsonMarshal info = some marshalled →
          c.prefillerProxyHandler prefillHost = some prefillHandler →
          (runSGLangProtocol c s w r prefillHost).trace =
            [.generateSGLangRoomID (generateSGLangRoomID c.nowUnixNano c.randIntn),
             .jsonMarshal info,
             .prefillerProxyHandler prefillHost,
             .goServeHTTP prefillHandler (cloneWithJSONBody r marshalled),
             .ServeHTTP s.decoderProxy (cloneWithJSONBody r marshalled)])) ∧
    (∀ handler q, (SGLangEvent.goServeHTTP handler q ∈
          (runSGLangProtocol c s w r prefillHost).trace ∨
        SGLangEvent.ServeHTTP handler q ∈ (runSGLangProtocol c s w r prefillHost).trace) →
      ∃ roomID info marshalled prefillHandler,
        c.jsonMarshal info = some marshalled ∧
        (runSGLangProtocol c s w r prefillHost).trace =
          [.generateSGLangRoomID roomID, .jsonMarshal info,
           .prefillerProxyHandler prefillHost,
           .goServeHTTP prefillHandler (cloneWithJSONBody r marshalled),
           .ServeHTTP s.decoderProxy (cloneWithJSONBody r marshalled)]) := by
  refine ⟨rfl, rfl, ?_, ?_, ?_, ?_, ?_, ?_⟩
  · intro prefillHandler hf
    rw [sendSGLangConcurrentRequests_some c s w r body prefillHost prefillHandler hf]
  · intro handler q hmem
    cases hf : c.prefillerProxyHandler prefillHost with
    | none =>
      rw [sendSGLangConcurrentRequests_none c s w r body prefillHost hf] at hmem
      simp at hmem
    | some h =>
      rw [sendSGLangConcurrentRequests_some c s w r body prefillHost h hf] at hmem
      simp at hmem
      exact hmem.2
  · intro handler q hmem
    cases hf : c.prefillerProxyHandler prefillHost with
    | none =>
      rw [sendSGLangConcurrentRequests_none c s w r body prefillHost hf] at hmem
      simp at hmem
    | some h =>
      rw [sendSGLangConcurrentRequests_some c s w r body prefillHost h hf] at hmem
      simp at hmem
      exact hmem.2
  · intro info hmem
    cases hf : c.prefillerProxyHandler prefillHost with
    | none =>
      rw [sendSGLangConcurrentRequests_none c s w r body prefillHost hf] at hmem
      simp at hmem
    | some h =>
      rw [sendSGLangConcurrentRequests_some c s w r body prefillHost h hf] at hmem
      simp at hmem
  · intro raw requestData hbody hjson
    have hparse := parseSGLangRequest_ok c r raw requestData hbody hjson
    obtain ⟨info, hadd⟩ := addSGLangBootstrapInfo_isSome c requestData prefillHost
      (generateSGLangRoomID c.nowUnixNano c.randIntn)
    refine ⟨info, hadd, ?_, ?_, ?_⟩
    · cases hm : c.jsonMarshal info with
      | none =>
        rw [runSGLangProtocol_marshal_none c s w r prefillHost requestData info hparse hadd hm]
        rfl
      | some marshalled =>
        rw [runSGLangProtocol_marshal_some c s w r prefillHost requestData info marshalled
          hparse hadd hm, List.countP_append,
          sendSGLangConcurrentRequests_countP_marshal]
        rfl
    · cases hm : c.jsonMarshal info with
      | none =>
        rw [runSGLangProtocol_marshal_none c s w r prefillHost requestData info hparse hadd hm]
        rfl
      | some marshalled =>
        rw [runSGLangProtocol_marshal_some c s w r prefillHost requestData info marshalled
          hparse hadd hm]
        rfl
    · intro marshalled prefillHandler hm hf
      rw [runSGLangProtocol_marshal_some c s w r prefillHost requestData info marshalled
        hparse hadd hm,
        sendSGLangConcurrentRequests_some c s w r marshalled prefillHost prefillHandler hf]
      rfl
  · intro handler q hmem
    unfold runSGLangProtocol at hmem ⊢
    cases hp : parseSGLangRequest c r with
    | error err =>
      simp [hp] at hmem
    | ok requestData =>
      simp only [hp] at hmem ⊢
      cases ha : addSGLangBootstrapInfo c requestData prefillHost
          (generateSGLangRoomID c.nowUnixNano c.randIntn) with
      | none => simp [ha] at hmem
      | some info =>
        simp only [ha] at hmem ⊢
        cases hm : c.jsonMarshal info with
        | none => simp [hm] at hmem
        | some marshalled =>
          simp only [hm] at hmem ⊢
          cases hf : c.prefillerProxyHandler prefillHost with
          | none =>
            rw [sendSGLangConcurrentRequests_none c s w r marshalled prefillHost hf] at hmem
            simp at hmem
          | some h =>
            rw [sendSGLangConcurrentRequests_some c s w r marshalled prefillHost h hf]
            exact ⟨_, info, marshalled, h, hm, rfl⟩

/-- Witness for C15: on the body `{}` and the target `10.0.0.5:8000` the run
generates the room identifier, marshals once, and hands the marshalled bytes
to the prefill handler and to the decode handler. -/
theorem sendSGLangConcurrentRequests_bodies_witness :
    (sendSGLangConcurrentRequests testConnector (testServer false 0 allowAllButEvil true) {}
        (bodyRequest emptyObjectBody) [3] "10.0.0.5:8000").trace =
      [.prefillerProxyHandler "10.0.0.5:8000",
       .goServeHTTP (.reverseProxy { Scheme := "http", Host := "10.0.0.5:8000" } false)
         { Header := [], Body := some [3], ContentLength := 1 },
       .ServeHTTP (.func 0) { Header := [], Body := some [3], ContentLength := 1 }] ∧
    (runSGLangProtocol testConnector (testServer false 0 allowAllButEvil true) {}
        (bodyRequest emptyObjectBody) "10.0.0.5:8000").trace.countP
      SGLangEvent.isJSONMarshal = 1 ∧
    (runSGLangProtocol testConnector (testServer false 0 allowAllButEvil true) {}
        (bodyRequest emptyObjectBody) "10.0.0.5:8000").trace =
      [.generateSGLangRoomID 1700000000000000007,
       .jsonMarshal [("bootstrap_host", .str "10.0.0.5"), ("bootstrap_port", .int 8998),
         ("bootstrap_room", .int 1700000000000000007)],
       .prefillerProxyHandler "10.0.0.5:8000",
       .goServeHTTP (.reverseProxy { Scheme := "http", Host := "10.0.0.5:8000" } false)
         { Header := [], Body := some [3], ContentLength := 1 },
       .ServeHTTP (.func 0) { Header := [], Body := some [3], ContentLength := 1 }] :=
  have h := sendSGLangConcurrentRequests_bodies testConnector
    (testServer false 0 allowAllButEvil true) {} (bodyRequest emptyObjectBody) [3]
    "10.0.0.5:8000"
  have hrun := h.2.2.2.2.2.2.1 emptyObjectBody [] rfl rfl
  ⟨h.2.2.1 _ rfl,
   hrun.elim fun _ hinfo => hinfo.2.1,
   by decide⟩

/-- C16, as stated, fails: two clock readings one nanosecond apart give the same
room identifier when the first draw is 1 and the second is 0. -/
theorem generateSGLangRoomID_collision :
    ¬ ∀ t1 t2 r1 r2 : Int, t1 < t2 → 0 ≤ r1 → r1 < 1000 → 0 ≤ r2 → r2 < 1000 →
      generateSGLangRoomID t1 r1 ≠ generateSGLangRoomID t2 r2 := by
  intro h
  exact h 1700000000000000000 1700000000000000001 1 0 (by decide) (by decide) (by decide)
    (by decide) (by decide) (by decide)

/-- C16, amended: for clock readings `0 ≤ t1 < t2` within `int64` and draws in
`[0, 1000)`, the two room identifiers are equal exactly when
`t2 - t1 = r1 - r2`; they are distinct whenever the readings are at least
1000 ns apart, and whenever the first draw is not the larger one. -/
theorem generateSGLangRoomID_distinct (t1 t2 r1 r2 : Int) (h0 : 0 ≤ t1) (ht : t1 < t2)
    (hmax : t2 < 2 ^ 63) (hr1 : 0 ≤ r1) (hr1' : r1 < 1000) (hr2 : 0 ≤ r2)
    (hr2' : r2 < 1000) :
    (generateSGLangRoomID t1 r1 = generateSGLangRoomID t2 r2 ↔ t2 - t1 = r1 - r2) ∧
    (t1 + 1000 ≤ t2 → generateSGLangRoomID t1 r1 ≠ generateSGLangRoomID t2 r2) ∧
    (r1 ≤ r2 → generateSGLangRoomID t1 r1 ≠ generateSGLangRoomID t2 r2) := by
  unfold generateSGLangRoomID int64
  refine ⟨?_, ?_, ?_⟩
  · constructor <;> intro h <;> omega
  · intro h1 h
    omega
  · intro h1 h
    omega

/-- Witness for the amended C16: readings 1000 ns apart. -/
theorem generateSGLangRoomID_distinct_witness :
    generateSGLangRoomID 1700000000000000000 999 ≠
      generateSGLangRoomID 1700000000000001000 0 :=
  (generateSGLangRoomID_distinct 1700000000000000000 1700000000000001000 999 0
    (by decide) (by decide) (by decide) (by decide) (by decide) (by decide)
    (by decide)).2.1 (by decide)

/-- C17 fails on an IPv6 target: for the host `::1` and the port `8000`, written
`[::1]:8000` by `net.JoinHostPort`, `getBootstrapHost` returns `[`, which is
neither `::1` nor `[::1]`; a host without a colon is returned as it is. -/
theorem getBootstrapHost_ipv6 :
    JoinHostPort "::1" "8000" = "[::1]:8000" ∧
    getBootstrapHost (JoinHostPort "::1" "8000") = some "[" ∧
    getBootstrapHost (JoinHostPort "10.0.0.5" "8000") = some "10.0.0.5" := by
  decide

/-- C18: when the prefill handler factory fails, `sendSGLangConcurrentRequests`
calls `errorBadGateway` on the client's writer and returns: no prefill request
is dispatched and the decode handler is not invoked; when the factory succeeds
the decode handler is invoked exactly once, on the client's writer. -/
theorem sendSGLangConcurrentRequests_gateway (c : Connector) (s : Server) (w : Response)
    (r : Request) (body : Bytes) (prefillHost : String) :
    (c.prefillerProxyHandler prefillHost = none →
      sendSGLangConcurrentRequests c s w r body prefillHost =
        { trace := [.prefillerProxyHandler prefillHost,
                    .errorBadGateway (.prefillerProxy prefillHost)],
          w := c.errorBadGateway (.prefillerProxy prefillHost) w,
          pw := none } ∧
      (∀ handler q, SGLangEvent.goServeHTTP handler q ∉
        (sendSGLangConcurrentRequests c s w r body prefillHost).trace) ∧
      (∀ handler q, SGLangEvent.ServeHTTP handler q ∉
        (sendSGLangConcurrentRequests c s w r body prefillHost).trace)) ∧
    (∀ prefillHandler, c.prefillerProxyHandler prefillHost = some prefillHandler →
      (sendSGLangConcurrentRequests c s w r body prefillHost).trace =
        [.prefillerProxyHandler prefillHost,
         .goServeHTTP prefillHandler (cloneWithJSONBody r body),
         .ServeHTTP s.decoderProxy (cloneWithJSONBody r body)] ∧
      ((sendSGLangConcurrentRequests c s w r body prefillHost).trace.countP
        (fun e => match e with
          | .ServeHTTP _ _ => true
          | _ => false)) = 1 ∧
      (sendSGLangConcurrentRequests c s w r body prefillHost).w =
        c.ServeHTTP s.decoderProxy (cloneWithJSONBody r body) w) := by
  constructor
  · intro hf
    have h := sendSGLangConcurrentRequests_none c s w r body prefillHost hf
    refine ⟨h, ?_, ?_⟩ <;>
      · intros
        rw [h]
        simp
  · intro prefillHandler hf
    rw [sendSGLangConcurrentRequests_some c s w r body prefillHost prefillHandler hf]
    exact ⟨rfl, rfl, rfl⟩

/-- C19: when the factory succeeds, what `sendSGLangConcurrentRequests` leaves
in the client's writer is what the decode handler does to it on the decode
request; two environments whose decode handler behaves alike leave the same
client response, whatever prefill handler the factory returns in each and
whatever that handler writes, and the prefill handler runs on a fresh writer
of its own. -/
theorem prefill_non_interference (c c' : Connector) (s : Server) (w : Response)
    (r : Request) (body : Bytes) (prefillHost : String) (prefillHandler prefillHandler' : Handler)
    (hf : c.prefillerProxyHandler prefillHost = some prefillHandler)
    (hf' : c'.prefillerProxyHandler prefillHost = some prefillHandler')
    (hdecode : c'.ServeHTTP s.decoderProxy = c.ServeHTTP s.decoderProxy) :
    (sendSGLangConcurrentRequests c s w r body prefillHost).w =
      (sendSGLangConcurrentRequests c' s w r body prefillHost).w ∧
    (sendSGLangConcurrentRequests c s w r body prefillHost).w =
      c.ServeHTTP s.decoderProxy (cloneWithJSONBody r body) w ∧
    (sendSGLangConcurrentRequests c s w r body prefillHost).pw =
      some (c.ServeHTTP prefillHandler (cloneWithJSONBody r body) {}) := by
  rw [sendSGLangConcurrentRequests_some c s w r body prefillHost prefillHandler hf,
    sendSGLangConcurrentRequests_some c' s w r body prefillHost prefillHandler' hf']
  simp only [hdecode, and_self]

/-- Witness for C19: a second environment whose prefill factory returns another
handler, which answers 404 where the first answers 500. -/
theorem prefill_non_interference_witness :
    (sendSGLangConcurrentRequests testConnector (testServer false 0 allowAllButEvil true) {}
      (bodyRequest emptyObjectBody) [1] "10.0.0.5:8000").w =
    (sendSGLangConcurrentRequests otherConnector (testServer false 0 allowAllButEvil true) {}
      (bodyRequest emptyObjectBody) [1] "10.0.0.5:8000").w ∧
    (sendSGLangConcurrentRequests testConnector (testServer false 0 allowAllButEvil true) {}
      (bodyRequest emptyObjectBody) [1] "10.0.0.5:8000").pw ≠
    (sendSGLangConcurrentRequests otherConnector (testServer false 0 allowAllButEvil true) {}
      (bodyRequest emptyObjectBody) [1] "10.0.0.5:8000").pw :=
  ⟨(prefill_non_interference testConnector otherConnector
      (testServer false 0 allowAllButEvil true) {}
      (bodyRequest emptyObjectBody) [1] "10.0.0.5:8000"
      (.reverseProxy { Scheme := "http", Host := "10.0.0.5:8000" } false) (.func 9)
      rfl rfl rfl).1,
   by decide⟩

/-- C20: when the data-parallel header value `k` is not empty and the table
holds a handler for `k`, `dataParallelHandler` reads the table at `k`, invokes
that handler once on the original request, writes no status and returns true;
its result depends on the table through the entry at `k` alone; and after
`dataParallelHandler` and after `chatCompletionsHandler` the table is the one
before, for every request. -/
theorem dataParallelHandler_pure_lookup (s : Server) (r : Request) (handler : Handler)
    (hdp : r.Header.Get .DataParallelPodHeader ≠ "")
    (hhit : s.dataParallelProxy (r.Header.Get .DataParallelPodHeader) = some handler) :
    dataParallelHandler s r =
      ([.dataParallelLookup (r.Header.Get .DataParallelPodHeader), .ServeHTTP handler r],
        true) ∧
    (∀ code, Event.WriteHeader code ∉ (dataParallelHandler s r).1) ∧
    (∀ table, (Server.dataParallelProxy { s with dataParallelProxies := table }
        (r.Header.Get .DataParallelPodHeader) = some handler) →
      dataParallelHandler { s with dataParallelProxies := table } r =
        dataParallelHandler s r) ∧
    (∀ r', (s.afterDataParallelHandler r').dataParallelProxies = s.dataParallelProxies) ∧
    (∀ r', (s.afterChatCompletionsHandler r').dataParallelProxies =
      s.dataParallelProxies) := by
  have hrun := dataParallelHandler_hit s r handler hdp hhit
  refine ⟨hrun, ?_, ?_, ?_, ?_⟩
  · intro code hmem
    rw [hrun] at hmem
    simp at hmem
  · intro table htable
    rw [hrun]
    exact dataParallelHandler_hit _ r handler hdp htable
  · intro r'
    rfl
  · intro r'
    unfold Server.afterChatCompletionsHandler Server.afterDataParallelHandler
    split_ifs <;> rfl

/-- Witness for C20: after `startDataParallel` with three ranks, the header
`10.0.0.1:8001` is served by the handler of rank 1. -/
theorem dataParallelHandler_pure_lookup_witness :
    dataParallelHandler (startDataParallel "10.0.0.1" parseHTTP (rankServer 3)).server
        (dataParallelRequest ["10.0.0.1:8001"]) =
      ([.dataParallelLookup "10.0.0.1:8001",
        .ServeHTTP (.reverseProxy { Scheme := "http", Host := "localhost:8201" } false)
          (dataParallelRequest ["10.0.0.1:8001"])], true) :=
  (dataParallelHandler_pure_lookup (startDataParallel "10.0.0.1" parseHTTP (rankServer 3)).server
    (dataParallelRequest ["10.0.0.1:8001"])
    (.reverseProxy { Scheme := "http", Host := "localhost:8201" } false)
    (by decide) (by decide)).1

/-- C21 fails on the code: when the data-parallel header names `10.0.0.1:8005`
and the table built for three ranks has no entry for it, `dataParallelHandler`
reads the table, writes status 400 and returns true; neither it nor
`chatCompletionsHandler` hands the request to the primary decode handler or to
any other handler. -/
theorem dataParallelHandler_unknown_rank_not_forwarded :
    (startDataParallel "10.0.0.1" parseHTTP (rankServer 3)).server.dataParallelProxy
      "10.0.0.1:8005" = none ∧
    dataParallelHandler (startDataParallel "10.0.0.1" parseHTTP (rankServer 3)).server
        (dataParallelRequest ["10.0.0.1:8005"]) =
      ([.dataParallelLookup "10.0.0.1:8005", .WriteHeader 400], true) ∧
    Event.ServeHTTP (startDataParallel "10.0.0.1" parseHTTP (rankServer 3)).server.decoderProxy
        (dataParallelRequest ["10.0.0.1:8005"]) ∉
      (dataParallelHandler (startDataParallel "10.0.0.1" parseHTTP (rankServer 3)).server
        (dataParallelRequest ["10.0.0.1:8005"])).1 ∧
    chatCompletionsHandler (startDataParallel "10.0.0.1" parseHTTP (rankServer 3)).server
        (dataParallelRequest ["10.0.0.1:8005"]) =
      [.dataParallelHandler (dataParallelRequest ["10.0.0.1:8005"]),
       .dataParallelLookup "10.0.0.1:8005", .WriteHeader 400] := by
  decide

/-- C22: `chatCompletionsHandler` calls the sampler only with the candidate
count, and only when that count is at least 1; a request without values for
the prefill header (a nil header map, an empty value list) makes no sampler
call; with sampling disabled the indexing never panics; and with a sampler that
returns an index `0 ≤ f n < n` for every `n ≥ 1` the index is within the list,
so the handler does not panic. -/
theorem chatCompletionsHandler_index_in_range (s : Server) (r : Request) :
    (∀ n, Event.prefillSamplerFn n ∈ chatCompletionsHandler s r →
      1 ≤ n ∧ n = ((prefillHostPorts r).length : Int)) ∧
    (r.Header.Values .PrefillPodHeader = [] →
      ∀ n, Event.prefillSamplerFn n ∉ chatCompletionsHandler s r) ∧
    (s.config.EnablePrefillerSampling = false →
      (selectPrefillHostPort s (prefillHostPorts r)).2 ≠ none ∧
      Event.panic ∉ chatCompletionsHandler s r) ∧
    ((∀ n, 1 ≤ n → 0 ≤ s.prefillSamplerFn n ∧ s.prefillSamplerFn n < n) →
      (selectPrefillHostPort s (prefillHostPorts r)).2 ≠ none ∧
      Event.panic ∉ chatCompletionsHandler s r) := by
  have hcount : ∀ n, Event.prefillSamplerFn n ∈ chatCompletionsHandler s r →
      1 ≤ n ∧ n = ((prefillHostPorts r).length : Int) := by
    intro n hmem
    have hsel := chatCompletionsHandler_sampler_mem s r n hmem
    have hne := selectPrefillHostPort_trace_nonempty s _ _ hsel
    have heq := selectPrefillHostPort_trace s _ _ hsel
    have hn : n = ((prefillHostPorts r).length : Int) := by
      injection heq
    have hpos := List.length_pos.mpr hne
    exact ⟨by omega, hn⟩
  have hoff : s.config.EnablePrefillerSampling = false →
      (selectPrefillHostPort s (prefillHostPorts r)).2 ≠ none := by
    intro hs
    cases hcs : prefillHostPorts r with
    | nil => simp [selectPrefillHostPort_nil]
    | cons c rest => simp [selectPrefillHostPort_first s c rest hs]
  have hon : (∀ n, 1 ≤ n → 0 ≤ s.prefillSamplerFn n ∧ s.prefillSamplerFn n < n) →
      (selectPrefillHostPort s (prefillHostPorts r)).2 ≠ none := by
    intro hf
    cases hs : s.config.EnablePrefillerSampling with
    | false => exact hoff hs
    | true =>
      cases hcs : prefillHostPorts r with
      | nil => simp [selectPrefillHostPort_nil]
      | cons c rest =>
        have hlen : (1 : Int) ≤ ((c :: rest).length : Int) := by
          simp only [List.length_cons]
          omega
        obtain ⟨hlo, hhi⟩ := hf _ hlen
        obtain ⟨x, -, hidx⟩ := index_eq_some_of_bounds (c :: rest) _ hlo hhi
        simp [selectPrefillHostPort_sampling s (c :: rest) x hs (by simp) hidx]
  refine ⟨hcount, ?_, ?_, ?_⟩
  · intro hvals n hmem
    have hcs : prefillHostPorts r = [] := by
      unfold prefillHostPorts
      simp [hvals]
    have := (hcount n hmem)
    rw [hcs] at this
    simp only [List.length_nil, Nat.cast_zero] at this
    omega
  · intro hs
    exact ⟨hoff hs, chatCompletionsHandler_no_panic_of_selected s r (hoff hs)⟩
  · intro hf
    exact ⟨hon hf, chatCompletionsHandler_no_panic_of_selected s r (hon hf)⟩

/-- Witness for C22: the sampler `1 % n` of the test is within `[0, n)` for
every `n ≥ 1`, and the handler does not panic on the header `"a,b"`. -/
theorem chatCompletionsHandler_index_in_range_witness :
    Event.panic ∉
      chatCompletionsHandler (testServer true 1 allowAllButEvil true) (prefillRequest ["a,b"]) :=
  ((chatCompletionsHandler_index_in_range (testServer true 1 allowAllButEvil true)
    (prefillRequest ["a,b"])).2.2.2
    (fun n hn => ⟨Int.tmod_nonneg n (by decide), Int.tmod_lt_of_pos 1 (by omega)⟩)).2

/-- C23: `getBootstrapHost` is total: for every string the slice `parts` is not
empty, so `parts[0]` is in range, and the result is the longest prefix of the
input without a `:` character, namely the characters before the first `:`.
The result contains no `:`, it is the input itself when the input has no `:`,
and `getBootstrapHost` applied to it returns it again. -/
theorem getBootstrapHost_total (prefillHostPort : String) :
    SplitColon prefillHostPort ≠ [] ∧
    ∃ host, getBootstrapHost prefillHostPort = some host ∧
      host.data = prefillHostPort.data.takeWhile (fun c => c ≠ ':') ∧
      host.data <+: prefillHostPort.data ∧
      ':' ∉ host.data ∧
      (∀ pre : List Char, pre <+: prefillHostPort.data → ':' ∉ pre →
        pre.length ≤ host.data.length) ∧
      (':' ∉ prefillHostPort.data → host = prefillHostPort) ∧
      getBootstrapHost host = some host := by
  refine ⟨(getBootstrapHost_eq prefillHostPort).2,
    ⟨prefillHostPort.data.takeWhile (fun c => c ≠ ':')⟩,
    getBootstrapHost_takeWhile prefillHostPort, rfl, ?_, ?_, ?_, ?_, ?_⟩
  · exact List.takeWhile_prefix _
  · intro hmem
    have := List.mem_takeWhile_imp hmem
    simp at this
  · intro pre hpre hcolon
    apply takeWhile_longest _ _ _ hpre
    intro c hc
    have hne : c ≠ ':' := fun h => hcolon (h ▸ hc)
    simpa using hne
  · intro hcolon
    apply String.ext
    simp only
    rw [List.takeWhile_eq_self_iff]
    intro c hc
    have hne : c ≠ ':' := fun h => hcolon (h ▸ hc)
    simpa using hne
  · rw [getBootstrapHost_takeWhile]
    simp only [List.takeWhile_idem]

end Proxy
